import Mathlib

/-!
Verification of the link_scraper XML modules.

Shallow embedding of `src/formats/xml/mod.rs` (generic XML link scraper) and
`src/formats/xml/xlink/mod.rs` (XLink-vocabulary scraper). The external
collaborators are abstracted exactly at their interfaces:

* the `xml-rs` tokenizer is modelled as the finite sequence of results its
  `next()` calls would produce: each item is either an event together with the
  value `parser.position()` returns while that event is current, or a fatal
  tokenizer error (after a fatal error `xml-rs` keeps returning the error, so
  an error item is kept at the head of the remaining stream when a sub-loop
  stops on it);
* the URL matcher `find_urls` is an arbitrary function from a string to the
  list of matched substrings (the scrapers only ever use `as_str()` of a
  match).
-/

namespace LinkScraper

/-- A `TextPosition` of the `xml-rs` crate: row and column of an event. -/
structure TextPosition where
  row : Nat
  column : Nat
deriving DecidableEq

/-- An `OwnedName` of the `xml-rs` crate. The derived `PartialEq` of the Rust
type compares all three fields, which `DecidableEq` mirrors. The Rust field
`prefix` is called `pfx` here. -/
structure OwnedName where
  local_name : String
  «namespace» : Option String
  pfx : Option String
deriving DecidableEq

/-- An `OwnedAttribute` of the `xml-rs` crate. -/
structure OwnedAttribute where
  name : OwnedName
  value : String
deriving DecidableEq

/-- The XML events the scrapers inspect. Event kinds the code ignores
(`StartDocument`, `ProcessingInstruction`, `Whitespace`, `Doctype`) are folded
into `OtherEvent`. -/
inductive XmlEvent where
  | StartElement (name : OwnedName) (attributes : List OwnedAttribute)
      («namespace» : List (String × String))
  | EndElement (name : OwnedName)
  | Comment (text : String)
  | Characters (text : String)
  | CData (text : String)
  | EndDocument
  | OtherEvent
deriving DecidableEq

/-- An opaque fatal error of the tokenizer (`xml::reader::Error`). -/
structure TokenizerError where
  message : String
deriving DecidableEq

/-- One result of a `parser.next()` call: an event with the position the
parser reports for it, or a fatal tokenizer error. -/
inductive StreamItem where
  | ok (event : XmlEvent) (pos : TextPosition)
  | fail (error : TokenizerError)
deriving DecidableEq

/-- The URL matcher `find_urls` as black box: the ordered list of matched
substrings found in a text. -/
def UrlMatcher : Type := String → List String

/-- `ParentInformation` from `src/formats/xml/mod.rs`. -/
structure ParentInformation where
  parent_tag_name : Option OwnedName
deriving DecidableEq

/-- `XmlLinkKind` from `src/formats/xml/mod.rs`. -/
inductive XmlLinkKind where
  | Attribute (att : OwnedAttribute)
  | Comment
  | PlainText (parent : ParentInformation)
  | CData (parent : ParentInformation)
  | NameSpace (ns : String)
deriving DecidableEq

/-- `XmlLink` from `src/formats/xml/mod.rs`. -/
structure XmlLink where
  url : String
  location : TextPosition
  kind : XmlLinkKind
deriving DecidableEq

/-- `XmlScrapingError` from `src/formats/xml/mod.rs`. -/
inductive XmlScrapingError where
  | IoError (message : String)
  | XmlReaderError (error : TokenizerError)
deriving DecidableEq

/-- `NamespaceOccurrence` from `src/formats/xml/mod.rs`. -/
structure NamespaceOccurrence where
  «namespace» : String
  namespace_uri : String
  first_occurrence : TextPosition
deriving DecidableEq

/-- The hand-written `PartialEq for NamespaceOccurrence`: positions are
ignored, only prefix and URI are compared. -/
def NamespaceOccurrence.eq (a b : NamespaceOccurrence) : Bool :=
  a.namespace_uri == b.namespace_uri && a.«namespace» == b.«namespace»

namespace Xml

/-- The links built from the attributes of one start element: for every
attribute, one `Attribute` link per URL-matcher match on its value, at the
parser's current position. This is the body of
`scrape_from_xml_start_element_attributes` before wrapping in `Ok`. -/
def attributeLinks (find_urls : UrlMatcher) (attributes : List OwnedAttribute)
    (pos : TextPosition) : List XmlLink :=
  attributes.foldl (fun ret att =>
    ret ++ (find_urls att.value).map (fun link =>
      { url := link, location := pos, kind := XmlLinkKind.Attribute att })) []

/-- `scrape_from_xml_start_element_attributes` from `src/formats/xml/mod.rs`:
it builds the attribute links and returns them wrapped in `Ok`; no code path
constructs an error. -/
def scrape_from_xml_start_element_attributes (find_urls : UrlMatcher)
    (attributes : List OwnedAttribute) (pos : TextPosition) :
    Except XmlScrapingError (List XmlLink) :=
  Except.ok (attributeLinks find_urls attributes pos)

/-- The namespace registration of one start element: every binding of the
in-scope namespace mapping that is not yet registered (per the position-blind
`PartialEq`, checked by `Vec::contains`) is pushed with the current position. -/
def registerNamespaces (namespaces : List NamespaceOccurrence)
    (bindings : List (String × String)) (pos : TextPosition) :
    List NamespaceOccurrence :=
  bindings.foldl (fun acc b =>
    let occ : NamespaceOccurrence :=
      { «namespace» := b.1, namespace_uri := b.2, first_occurrence := pos }
    if acc.any (fun o => NamespaceOccurrence.eq o occ) then acc else acc ++ [occ]) namespaces

/-- The event loop of `scrape` in `src/formats/xml/mod.rs`. The
`while let Ok(xml_event) = &parser.next()` loop stops (without error) at the
first tokenizer failure, and breaks at `EndDocument`; the state is the
`current_parent`, the namespace registry and the link collector. The `?` on
the attribute helper is modelled by the inner match on its `Except` result. -/
def scrapeLoop (find_urls : UrlMatcher) :
    List StreamItem → Option OwnedName → List NamespaceOccurrence → List XmlLink →
    Except XmlScrapingError (List XmlLink × List NamespaceOccurrence)
  | [], _, namespaces, collector => Except.ok (collector, namespaces)
  | StreamItem.fail _ :: _, _, namespaces, collector => Except.ok (collector, namespaces)
  | StreamItem.ok event pos :: rest, current_parent, namespaces, collector =>
    match event with
    | XmlEvent.StartElement name attributes bindings =>
      match scrape_from_xml_start_element_attributes find_urls attributes pos with
      | Except.error e => Except.error e
      | Except.ok links =>
        scrapeLoop find_urls rest (some name)
          (registerNamespaces namespaces bindings pos) (collector ++ links)
    | XmlEvent.Comment text =>
      scrapeLoop find_urls rest current_parent namespaces
        (collector ++ (find_urls text).map (fun link =>
          { url := link, location := pos, kind := XmlLinkKind.Comment }))
    | XmlEvent.Characters text =>
      scrapeLoop find_urls rest current_parent namespaces
        (collector ++ (find_urls text).map (fun link =>
          { url := link, location := pos,
            kind := XmlLinkKind.PlainText ⟨current_parent⟩ }))
    | XmlEvent.CData text =>
      scrapeLoop find_urls rest current_parent namespaces
        (collector ++ (find_urls text).map (fun link =>
          { url := link, location := pos,
            kind := XmlLinkKind.CData ⟨current_parent⟩ }))
    | XmlEvent.EndDocument => Except.ok (collector, namespaces)
    | XmlEvent.EndElement _ =>
      scrapeLoop find_urls rest current_parent namespaces collector
    | XmlEvent.OtherEvent =>
      scrapeLoop find_urls rest current_parent namespaces collector

/-- The namespace flush at the end of `scrape`: every accumulated occurrence
whose URI has at least one URL-matcher match becomes one `NameSpace` link
whose url is the whole URI, at the occurrence's first-seen position. -/
def flushNamespaces (find_urls : UrlMatcher)
    (namespaces : List NamespaceOccurrence) : List XmlLink :=
  namespaces.filterMap (fun occ =>
    if (find_urls occ.namespace_uri).length = 0 then none
    else some { url := occ.namespace_uri, location := occ.first_occurrence,
                kind := XmlLinkKind.NameSpace occ.«namespace» })

/-- `scrape` from `src/formats/xml/mod.rs`: run the event loop starting with
no current parent and empty accumulators, then append the namespace flush. -/
def scrape (find_urls : UrlMatcher) (stream : List StreamItem) :
    Except XmlScrapingError (List XmlLink) :=
  match scrapeLoop find_urls stream none [] [] with
  | Except.error e => Except.error e
  | Except.ok (collector, namespaces) =>
    Except.ok (collector ++ flushNamespaces find_urls namespaces)

/-- The filter used by `scrape_from_href_tags`: keep `Attribute` links whose
attribute's local name is exactly `href`, ignoring its namespace and prefix. -/
def isHrefAttributeLink (link : XmlLink) : Bool :=
  match link.kind with
  | XmlLinkKind.Attribute att => att.name.local_name == "href"
  | _ => false

/-- The event loop of `scrape_from_href_tags` in `src/formats/xml/mod.rs`:
identical traversal skeleton, but only start elements contribute links, each
element's attribute links being filtered down to `href` attributes. -/
def hrefLoop (find_urls : UrlMatcher) :
    List StreamItem → List XmlLink → Except XmlScrapingError (List XmlLink)
  | [], collector => Except.ok collector
  | StreamItem.fail _ :: _, collector => Except.ok collector
  | StreamItem.ok event pos :: rest, collector =>
    match event with
    | XmlEvent.StartElement _ attributes _ =>
      match scrape_from_xml_start_element_attributes find_urls attributes pos with
      | Except.error e => Except.error e
      | Except.ok list =>
        hrefLoop find_urls rest (collector ++ list.filter isHrefAttributeLink)
    | XmlEvent.EndDocument => Except.ok collector
    | _ => hrefLoop find_urls rest collector

/-- `scrape_from_href_tags` from `src/formats/xml/mod.rs`. -/
def scrape_from_href_tags (find_urls : UrlMatcher) (stream : List StreamItem) :
    Except XmlScrapingError (List XmlLink) :=
  hrefLoop find_urls stream []

end Xml

/-- `XmlStartElement` from `src/formats/xml/mod.rs`: the borrowed view of a
start element handed to the XLink classifier. -/
structure XmlStartElement where
  name : OwnedName
  attributes : List OwnedAttribute
  «namespace» : List (String × String)
deriving DecidableEq

namespace XLink

/-- `XLinkFormatError` from `src/formats/xml/xlink/mod.rs`. -/
inductive XLinkFormatError where
  | IoError (message : String)
  | UnknownTypeError (value : String)
  | MissingRequiredAttributeError (att : String)
  | LocatorOutsideOfExtendedError
  | ArcOutsideOfExtendedError
  | ResourceOutsideOfExtendedError
  | SimpleInsideOfExtendedError
  | ExtendedInsideOfExtendedError
  | XmlReaderError (error : TokenizerError)
deriving DecidableEq

/-- `XLinkLinkKind` from `src/formats/xml/xlink/mod.rs`. -/
inductive XLinkLinkKind where
  | Simple
  | Extended
  | Role
  | ArcRole
deriving DecidableEq

/-- `XLinkLink` from `src/formats/xml/xlink/mod.rs`. -/
structure XLinkLink where
  url : String
  location : TextPosition
  kind : XLinkLinkKind
deriving DecidableEq

/-- The `XLINK_NAMESPACE` constant. -/
def XLINK_NAMESPACE : String := "http://www.w3.org/1999/xlink"

/-- `get_xlink_attribute_value` from `src/formats/xml/xlink/mod.rs`: the value
of the first attribute with the given local name in the xlink namespace. -/
def get_xlink_attribute_value (key : String) (attributes : List OwnedAttribute) :
    Option String :=
  (attributes.find? (fun att =>
    att.name.local_name == key &&
      att.name.«namespace» == some XLINK_NAMESPACE)).map (fun att => att.value)

/-- Modelled from the spec: payload of a `simple` linking element
(`XlinkSimpleElement` lives in `src/formats/xml/xlink/elements.rs`, which is
not among the provided sources). Spec §3: `Simple {href?, role?, arcrole?,
title?}`, all raw attribute values. -/
structure XlinkSimpleElement where
  href : Option String
  role : Option String
  arcrole : Option String
  title : Option String
deriving DecidableEq

/-- Modelled from the spec: payload of an `extended` linking element
(`XlinkExtendedElement`, from the missing `elements.rs`). Spec §3:
`Extended {role?}`; the caller in `xlink/mod.rs` additionally reads
`xlink_extended_element.xml.name`, so the classified start element is kept. -/
structure XlinkExtendedElement where
  role : Option String
  xml : XmlStartElement
deriving DecidableEq

/-- Modelled from the spec: payload of a `locator` linking element, from the
missing `elements.rs`. Spec §3: `Locator {href, role?}` with `href` required. -/
structure XlinkLocatorElement where
  href : String
  role : Option String
deriving DecidableEq

/-- Modelled from the spec: payload of an `arc` linking element, from the
missing `elements.rs`. Spec §3: `Arc {arcrole?}`. -/
structure XlinkArcElement where
  arcrole : Option String
deriving DecidableEq

/-- Modelled from the spec: payload of a `resource` linking element, from the
missing `elements.rs`. Spec §3: `Resource {role?}`. -/
structure XlinkResourceElement where
  role : Option String
deriving DecidableEq

/-- Modelled from the spec: the `XlinkElement` classifier output, from the
missing `elements.rs`. Spec §3 lists the six element kinds; the `Title`
payload is never read by `xlink/mod.rs`. -/
inductive XlinkElement where
  | Simple (element : XlinkSimpleElement)
  | Extended (element : XlinkExtendedElement)
  | Locator (element : XlinkLocatorElement)
  | Arc (element : XlinkArcElement)
  | Resource (element : XlinkResourceElement)
  | Title
deriving DecidableEq

/-- Modelled from the spec: `XlinkElement::try_from_xml_start_element`, the
Element Classifier in the missing `elements.rs`. Spec §4.2: classification
requires a namespace-qualified `type` attribute whose value is one of
`simple`, `extended`, `locator`, `arc`, `resource`, `title`; an unrecognized
value signals `UnknownType`; a recognized type missing a required attribute
(`locator` without `href`) signals `MissingRequiredAttribute`; elements
lacking the type attribute entirely are not linking elements (`none`). All
attribute lookups go through `get_xlink_attribute_value`. -/
def try_from_xml_start_element (element : XmlStartElement) :
    Except XLinkFormatError (Option XlinkElement) :=
  match get_xlink_attribute_value "type" element.attributes with
  | none => Except.ok none
  | some t =>
    if t = "simple" then
      Except.ok (some (XlinkElement.Simple
        { href := get_xlink_attribute_value "href" element.attributes
          role := get_xlink_attribute_value "role" element.attributes
          arcrole := get_xlink_attribute_value "arcrole" element.attributes
          title := get_xlink_attribute_value "title" element.attributes }))
    else if t = "extended" then
      Except.ok (some (XlinkElement.Extended
        { role := get_xlink_attribute_value "role" element.attributes
          xml := element }))
    else if t = "locator" then
      match get_xlink_attribute_value "href" element.attributes with
      | none => Except.error (XLinkFormatError.MissingRequiredAttributeError "href")
      | some href =>
        Except.ok (some (XlinkElement.Locator
          { href := href, role := get_xlink_attribute_value "role" element.attributes }))
    else if t = "arc" then
      Except.ok (some (XlinkElement.Arc
        { arcrole := get_xlink_attribute_value "arcrole" element.attributes }))
    else if t = "resource" then
      Except.ok (some (XlinkElement.Resource
        { role := get_xlink_attribute_value "role" element.attributes }))
    else if t = "title" then
      Except.ok (some XlinkElement.Title)
    else
      Except.error (XLinkFormatError.UnknownTypeError t)

/-- `scrape_from_option_string` from `src/formats/xml/xlink/mod.rs`: a missing
optional attribute yields no links, a present one yields one link of the given
kind per URL-matcher match. -/
def scrape_from_option_string (find_urls : UrlMatcher) (role : Option String)
    (link_type : XLinkLinkKind) (position : TextPosition) : List XLinkLink :=
  match role with
  | none => []
  | some role =>
    (find_urls role).map (fun link =>
      { url := link, location := position, kind := link_type })

/-- The `while let Ok(xml_event) = &parser.next()` sub-loop inside
`scrape_from_xlink_extended`. It returns the accumulated links together with
the unconsumed remainder of the stream. A tokenizer failure stops the loop
without error (the failing item is left at the head, since `xml-rs` keeps
returning a fatal error); an element end whose full qualified name equals the
extended element's name breaks out of the loop; every event that classifies
to nothing, to `Title`, or is no start or matching end element just continues. -/
def extendedLoop (find_urls : UrlMatcher) (extName : OwnedName) :
    List StreamItem → List XLinkLink →
    Except XLinkFormatError (List XLinkLink × List StreamItem)
  | [], ret => Except.ok (ret, [])
  | StreamItem.fail e :: rest, ret => Except.ok (ret, StreamItem.fail e :: rest)
  | StreamItem.ok event pos :: rest, ret =>
    match event with
    | XmlEvent.StartElement name attributes bindings =>
      match try_from_xml_start_element ⟨name, attributes, bindings⟩ with
      | Except.error e => Except.error e
      | Except.ok none => extendedLoop find_urls extName rest ret
      | Except.ok (some xlink_element) =>
        match xlink_element with
        | XlinkElement.Simple _ =>
          Except.error XLinkFormatError.SimpleInsideOfExtendedError
        | XlinkElement.Extended _ =>
          Except.error XLinkFormatError.ExtendedInsideOfExtendedError
        | XlinkElement.Locator element =>
          extendedLoop find_urls extName rest
            (ret ++ ({ url := element.href, location := pos,
                       kind := XLinkLinkKind.Extended } ::
              scrape_from_option_string find_urls element.role XLinkLinkKind.Role pos))
        | XlinkElement.Arc element =>
          extendedLoop find_urls extName rest
            (ret ++ scrape_from_option_string find_urls element.arcrole
              XLinkLinkKind.ArcRole pos)
        | XlinkElement.Resource element =>
          extendedLoop find_urls extName rest
            (ret ++ scrape_from_option_string find_urls element.role
              XLinkLinkKind.Role pos)
        | XlinkElement.Title => extendedLoop find_urls extName rest ret
    | XmlEvent.EndElement name =>
      if name = extName then Except.ok (ret, rest)
      else extendedLoop find_urls extName rest ret
    | _ => extendedLoop find_urls extName rest ret

/-- `scrape_from_xlink_extended` from `src/formats/xml/xlink/mod.rs`: first
the extended element's own optional `role` is filtered and emitted, then the
sub-loop runs until the matching end tag. -/
def scrape_from_xlink_extended (find_urls : UrlMatcher)
    (xlink_extended_element : XlinkExtendedElement) (position : TextPosition)
    (stream : List StreamItem) :
    Except XLinkFormatError (List XLinkLink × List StreamItem) :=
  extendedLoop find_urls xlink_extended_element.xml.name stream
    (scrape_from_option_string find_urls xlink_extended_element.role
      XLinkLinkKind.Role position)

/-- `scrape_from_xlink_simple` from `src/formats/xml/xlink/mod.rs`: `href`,
`arcrole` and `role` are each filtered through the URL matcher and emitted
with kinds `Simple`, `ArcRole` and `Role`. -/
def scrape_from_xlink_simple (find_urls : UrlMatcher)
    (xlink_element : XlinkSimpleElement) (position : TextPosition) :
    List XLinkLink :=
  scrape_from_option_string find_urls xlink_element.href XLinkLinkKind.Simple position ++
    (scrape_from_option_string find_urls xlink_element.arcrole
        XLinkLinkKind.ArcRole position ++
      scrape_from_option_string find_urls xlink_element.role
        XLinkLinkKind.Role position)

/-- `scrape_from_start_element` from `src/formats/xml/xlink/mod.rs`: the
top-level (no open extended context) dispatch on the classified element. A
`Locator`, `Arc` or `Resource` here is fatal; an `Extended` runs the
sub-loop, consuming part of the stream. -/
def scrape_from_start_element (find_urls : UrlMatcher)
    (xml_start_element : XmlStartElement) (position : TextPosition)
    (stream : List StreamItem) :
    Except XLinkFormatError (List XLinkLink × List StreamItem) :=
  match try_from_xml_start_element xml_start_element with
  | Except.error e => Except.error e
  | Except.ok none => Except.ok ([], stream)
  | Except.ok (some xlink_element) =>
    match xlink_element with
    | XlinkElement.Simple element =>
      Except.ok (scrape_from_xlink_simple find_urls element position, stream)
    | XlinkElement.Extended element =>
      scrape_from_xlink_extended find_urls element position stream
    | XlinkElement.Locator _ =>
      Except.error XLinkFormatError.LocatorOutsideOfExtendedError
    | XlinkElement.Arc _ =>
      Except.error XLinkFormatError.ArcOutsideOfExtendedError
    | XlinkElement.Resource _ =>
      Except.error XLinkFormatError.ResourceOutsideOfExtendedError
    | XlinkElement.Title => Except.ok ([], stream)

/-- The extended sub-loop never grows the stream: the unconsumed remainder is
no longer than the input. Needed to justify termination of the outer loop. -/
theorem extendedLoop_rest_length_le (find_urls : UrlMatcher) (extName : OwnedName) :
    ∀ (stream : List StreamItem) (ret links : List XLinkLink)
      (rest : List StreamItem),
      extendedLoop find_urls extName stream ret = Except.ok (links, rest) →
      rest.length ≤ stream.length := by
  intro stream
  induction stream with
  | nil =>
    intro ret links rest h
    simp only [extendedLoop] at h
    cases h
    exact Nat.le_refl _
  | cons item tail ih =>
    intro ret links rest h
    cases item with
    | fail e =>
      simp only [extendedLoop] at h
      cases h
      exact Nat.le_refl _
    | ok event pos =>
      cases event with
      | StartElement name attributes bindings =>
        simp only [extendedLoop] at h
        cases hc : try_from_xml_start_element ⟨name, attributes, bindings⟩ with
        | error e => rw [hc] at h; cases h
        | ok oe =>
          rw [hc] at h
          cases oe with
          | none => exact Nat.le_succ_of_le (ih _ _ _ h)
          | some xe =>
            cases xe with
            | Simple element => cases h
            | Extended element => cases h
            | Locator element => exact Nat.le_succ_of_le (ih _ _ _ h)
            | Arc element => exact Nat.le_succ_of_le (ih _ _ _ h)
            | Resource element => exact Nat.le_succ_of_le (ih _ _ _ h)
            | Title => exact Nat.le_succ_of_le (ih _ _ _ h)
      | EndElement name =>
        simp only [extendedLoop] at h
        by_cases hn : name = extName
        · rw [if_pos hn] at h
          cases h
          exact Nat.le_succ _
        · rw [if_neg hn] at h
          exact Nat.le_succ_of_le (ih _ _ _ h)
      | Comment text => exact Nat.le_succ_of_le (ih _ _ _ h)
      | Characters text => exact Nat.le_succ_of_le (ih _ _ _ h)
      | CData text => exact Nat.le_succ_of_le (ih _ _ _ h)
      | EndDocument => exact Nat.le_succ_of_le (ih _ _ _ h)
      | OtherEvent => exact Nat.le_succ_of_le (ih _ _ _ h)

/-- The top-level dispatch never grows the stream either. -/
theorem scrape_from_start_element_rest_length_le (find_urls : UrlMatcher)
    (xml_start_element : XmlStartElement) (position : TextPosition)
    (stream : List StreamItem) (links : List XLinkLink)
    (rest : List StreamItem)
    (h : scrape_from_start_element find_urls xml_start_element position stream
      = Except.ok (links, rest)) :
    rest.length ≤ stream.length := by
  unfold scrape_from_start_element at h
  cases hc : try_from_xml_start_element xml_start_element with
  | error e => rw [hc] at h; cases h
  | ok oe =>
    rw [hc] at h
    cases oe with
    | none => cases h; exact Nat.le_refl _
    | some xe =>
      cases xe with
      | Simple element => cases h; exact Nat.le_refl _
      | Extended element =>
        exact extendedLoop_rest_length_le find_urls element.xml.name stream _ _ _ h
      | Locator element => cases h
      | Arc element => cases h
      | Resource element => cases h
      | Title => cases h; exact Nat.le_refl _

/-- The `while let Ok(xml_event) = &parser.next()` loop of `scrape` in
`src/formats/xml/xlink/mod.rs`: a tokenizer failure or the end of the
document stops the loop without error; every start element goes through
`scrape_from_start_element`, whose consumed stream suffix (for extended
elements) is skipped before continuing. -/
def xlinkLoop (find_urls : UrlMatcher) (stream : List StreamItem)
    (collector : List XLinkLink) : Except XLinkFormatError (List XLinkLink) :=
  match stream with
  | [] => Except.ok collector
  | StreamItem.fail _ :: _ => Except.ok collector
  | StreamItem.ok event pos :: rest =>
    match event with
    | XmlEvent.StartElement name attributes bindings =>
      match hs : scrape_from_start_element find_urls ⟨name, attributes, bindings⟩
          pos rest with
      | Except.error e => Except.error e
      | Except.ok (list, rest2) => xlinkLoop find_urls rest2 (collector ++ list)
    | XmlEvent.EndDocument => Except.ok collector
    | _ => xlinkLoop find_urls rest collector
termination_by stream.length
decreasing_by
  · exact Nat.lt_succ_of_le
      (scrape_from_start_element_rest_length_le find_urls _ pos rest _ _ hs)
  · exact Nat.lt_succ_self _

/-- `scrape` from `src/formats/xml/xlink/mod.rs`. -/
def scrape (find_urls : UrlMatcher) (stream : List StreamItem) :
    Except XLinkFormatError (List XLinkLink) :=
  xlinkLoop find_urls stream []

end XLink

/-- Decidable equality of `Except` results, so that concrete scrapes can be
settled by `decide`. -/
instance exceptDecEq {e a : Type} [DecidableEq e] [DecidableEq a] :
    DecidableEq (Except e a)
  | Except.error x, Except.error y =>
    match decEq x y with
    | isTrue h => isTrue (by rw [h])
    | isFalse h => isFalse (by intro hc; cases hc; exact h rfl)
  | Except.error _, Except.ok _ => isFalse (by intro hc; cases hc)
  | Except.ok _, Except.error _ => isFalse (by intro hc; cases hc)
  | Except.ok x, Except.ok y =>
    match decEq x y with
    | isTrue h => isTrue (by rw [h])
    | isFalse h => isFalse (by intro hc; cases hc; exact h rfl)

namespace Xml

/-- The event loop of the generic scrape with the (unreachable) error plumbing
stripped: since the attribute helper always returns `Ok`, the loop's outcome
is this pure pair of collected links and namespace registry. -/
def scrapeLoopP (find_urls : UrlMatcher) :
    List StreamItem → Option OwnedName → List NamespaceOccurrence → List XmlLink →
    List XmlLink × List NamespaceOccurrence
  | [], _, namespaces, collector => (collector, namespaces)
  | StreamItem.fail _ :: _, _, namespaces, collector => (collector, namespaces)
  | StreamItem.ok event pos :: rest, current_parent, namespaces, collector =>
    match event with
    | XmlEvent.StartElement name attributes bindings =>
      scrapeLoopP find_urls rest (some name)
        (registerNamespaces namespaces bindings pos)
        (collector ++ attributeLinks find_urls attributes pos)
    | XmlEvent.Comment text =>
      scrapeLoopP find_urls rest current_parent namespaces
        (collector ++ (find_urls text).map (fun link =>
          { url := link, location := pos, kind := XmlLinkKind.Comment }))
    | XmlEvent.Characters text =>
      scrapeLoopP find_urls rest current_parent namespaces
        (collector ++ (find_urls text).map (fun link =>
          { url := link, location := pos,
            kind := XmlLinkKind.PlainText ⟨current_parent⟩ }))
    | XmlEvent.CData text =>
      scrapeLoopP find_urls rest current_parent namespaces
        (collector ++ (find_urls text).map (fun link =>
          { url := link, location := pos,
            kind := XmlLinkKind.CData ⟨current_parent⟩ }))
    | XmlEvent.EndDocument => (collector, namespaces)
    | XmlEvent.EndElement _ =>
      scrapeLoopP find_urls rest current_parent namespaces collector
    | XmlEvent.OtherEvent =>
      scrapeLoopP find_urls rest current_parent namespaces collector

/-- The generic event loop never reaches its error branch: it computes
exactly the pure loop. -/
theorem scrapeLoop_eq_ok (find_urls : UrlMatcher) :
    ∀ (stream : List StreamItem) (current_parent : Option OwnedName)
      (namespaces : List NamespaceOccurrence) (collector : List XmlLink),
      scrapeLoop find_urls stream current_parent namespaces collector
        = Except.ok (scrapeLoopP find_urls stream current_parent namespaces collector) := by
  intro stream
  induction stream with
  | nil => intro p nss coll; rfl
  | cons item rest ih =>
    intro p nss coll
    cases item with
    | fail e => rfl
    | ok event pos =>
      cases event with
      | StartElement name attributes bindings => exact ih _ _ _
      | Comment text => exact ih _ _ _
      | Characters text => exact ih _ _ _
      | CData text => exact ih _ _ _
      | EndDocument => rfl
      | EndElement name => exact ih _ _ _
      | OtherEvent => exact ih _ _ _

/-- `scrape` in terms of the pure loop. -/
theorem scrape_eq_ok (find_urls : UrlMatcher) (stream : List StreamItem) :
    scrape find_urls stream
      = Except.ok ((scrapeLoopP find_urls stream none [] []).1
          ++ flushNamespaces find_urls (scrapeLoopP find_urls stream none [] []).2) := by
  unfold scrape
  rw [scrapeLoop_eq_ok]

/-- The href event loop with the unreachable error plumbing stripped. -/
def hrefLoopP (find_urls : UrlMatcher) :
    List StreamItem → List XmlLink → List XmlLink
  | [], collector => collector
  | StreamItem.fail _ :: _, collector => collector
  | StreamItem.ok event pos :: rest, collector =>
    match event with
    | XmlEvent.StartElement _ attributes _ =>
      hrefLoopP find_urls rest
        (collector ++ (attributeLinks find_urls attributes pos).filter isHrefAttributeLink)
    | XmlEvent.EndDocument => collector
    | _ => hrefLoopP find_urls rest collector

/-- The href loop never reaches its error branch either. -/
theorem hrefLoop_eq_ok (find_urls : UrlMatcher) :
    ∀ (stream : List StreamItem) (collector : List XmlLink),
      hrefLoop find_urls stream collector
        = Except.ok (hrefLoopP find_urls stream collector) := by
  intro stream
  induction stream with
  | nil => intro coll; rfl
  | cons item rest ih =>
    intro coll
    cases item with
    | fail e => rfl
    | ok event pos =>
      cases event with
      | StartElement name attributes bindings => exact ih _
      | Comment text => exact ih _
      | Characters text => exact ih _
      | CData text => exact ih _
      | EndDocument => rfl
      | EndElement name => exact ih _
      | OtherEvent => exact ih _

/-- The key predicate of the namespace registry: does an occurrence bind
prefix `p` to URI `u` (positions ignored, as in the hand-written
`PartialEq`). -/
def occMatches (p u : String) (occ : NamespaceOccurrence) : Bool :=
  occ.«namespace» == p && occ.namespace_uri == u

/-- Registry lookup by (prefix, URI) key. -/
def findOcc (p u : String) (l : List NamespaceOccurrence) :
    Option NamespaceOccurrence :=
  l.find? (occMatches p u)

/-- The position of the first start element (within the part of the stream
the scraper actually consumes: the loop stops at a tokenizer failure and at
the end-of-document event) whose in-scope namespace bindings contain the
binding of prefix `p` to URI `u`. -/
def nsFirstPos (p u : String) : List StreamItem → Option TextPosition
  | [] => none
  | StreamItem.fail _ :: _ => none
  | StreamItem.ok event pos :: rest =>
    match event with
    | XmlEvent.StartElement _ _ bindings =>
      if bindings.any (fun b => b.1 == p && b.2 == u) then some pos
      else nsFirstPos p u rest
    | XmlEvent.EndDocument => none
    | _ => nsFirstPos p u rest

/-- The custom equality against a fresh occurrence is exactly the key match. -/
theorem eq_occ_iff_matches (o : NamespaceOccurrence) (p u : String)
    (pos : TextPosition) :
    NamespaceOccurrence.eq o ⟨p, u, pos⟩ = occMatches p u o := by
  simp [NamespaceOccurrence.eq, occMatches, Bool.and_comm]

theorem registerNamespaces_nil (nss : List NamespaceOccurrence)
    (pos : TextPosition) : registerNamespaces nss [] pos = nss := rfl

theorem registerNamespaces_cons (nss : List NamespaceOccurrence)
    (b : String × String) (bs : List (String × String)) (pos : TextPosition) :
    registerNamespaces nss (b :: bs) pos
      = registerNamespaces
          (if nss.any (fun o => NamespaceOccurrence.eq o ⟨b.1, b.2, pos⟩)
           then nss else nss ++ [⟨b.1, b.2, pos⟩]) bs pos := rfl

/-- Registering the bindings of one element extends the registry lookup:
an already-present key keeps its entry, a fresh key present among the
bindings is entered at the current position. -/
theorem findOcc_registerNamespaces (p u : String) (pos : TextPosition) :
    ∀ (bindings : List (String × String)) (nss : List NamespaceOccurrence),
      findOcc p u (registerNamespaces nss bindings pos)
        = (findOcc p u nss).or
            (if bindings.any (fun b => b.1 == p && b.2 == u)
             then some ⟨p, u, pos⟩ else none) := by
  intro bindings
  induction bindings with
  | nil =>
    intro nss
    rw [registerNamespaces_nil]
    simp
  | cons b bs ih =>
    intro nss
    rw [registerNamespaces_cons, ih]
    have hstep : findOcc p u
        (if nss.any (fun o => NamespaceOccurrence.eq o ⟨b.1, b.2, pos⟩)
         then nss else nss ++ [⟨b.1, b.2, pos⟩])
        = (findOcc p u nss).or
            (if b.1 == p && b.2 == u then some ⟨p, u, pos⟩ else none) := by
      by_cases hg : nss.any (fun o => NamespaceOccurrence.eq o ⟨b.1, b.2, pos⟩) = true
      · rw [if_pos hg]
        by_cases hb : (b.1 == p && b.2 == u) = true
        · have hb1 : b.1 = p := by
            have := (Bool.and_eq_true _ _).mp hb
            exact beq_iff_eq.mp this.1
          have hb2 : b.2 = u := by
            have := (Bool.and_eq_true _ _).mp hb
            exact beq_iff_eq.mp this.2
          have hsome : (findOcc p u nss).isSome = true := by
            rw [findOcc, List.find?_isSome]
            rcases List.any_eq_true.mp hg with ⟨o, ho, hoe⟩
            refine ⟨o, ho, ?_⟩
            rw [eq_occ_iff_matches] at hoe
            rw [hb1, hb2] at hoe
            exact hoe
          rcases Option.isSome_iff_exists.mp hsome with ⟨o, hoe⟩
          rw [hoe]
          rfl
        · rw [if_neg hb]
          simp
      · rw [if_neg hg]
        rw [findOcc, List.find?_append]
        have hsingle : List.find? (occMatches p u) [⟨b.1, b.2, pos⟩]
            = (if b.1 == p && b.2 == u then some ⟨b.1, b.2, pos⟩ else none) := by
          by_cases hb : (b.1 == p && b.2 == u) = true
          · have hm : occMatches p u ⟨b.1, b.2, pos⟩ = true := by
              simp only [occMatches]
              have h1 := (Bool.and_eq_true _ _).mp hb
              exact (Bool.and_eq_true _ _).mpr h1
            rw [if_pos hb]
            simp [List.find?, hm]
          · have hm : occMatches p u ⟨b.1, b.2, pos⟩ = false := by
              simp only [occMatches]
              exact Bool.not_eq_true _ ▸ (by
                intro hc
                exact hb hc)
            rw [if_neg hb]
            simp [List.find?, hm]
        rw [hsingle]
        by_cases hb : (b.1 == p && b.2 == u) = true
        · have hb1 : b.1 = p := by
            have := (Bool.and_eq_true _ _).mp hb
            exact beq_iff_eq.mp this.1
          have hb2 : b.2 = u := by
            have := (Bool.and_eq_true _ _).mp hb
            exact beq_iff_eq.mp this.2
          rw [if_pos hb, hb1, hb2]
          simp [findOcc]
        · rw [if_neg hb]
          simp [findOcc, hb]
    rw [hstep, Option.or_assoc]
    congr 1
    by_cases hb : (b.1 == p && b.2 == u) = true
    · have hb1 : b.1 = p := by
        have := (Bool.and_eq_true _ _).mp hb
        exact beq_iff_eq.mp this.1
      have hb2 : b.2 = u := by
        have := (Bool.and_eq_true _ _).mp hb
        exact beq_iff_eq.mp this.2
      have hany : (b :: bs).any (fun b => b.1 == p && b.2 == u) = true := by
        simp [List.any_cons, hb]
      rw [if_pos hb, hany]
      rfl
    · have hany : (b :: bs).any (fun b => b.1 == p && b.2 == u)
          = bs.any (fun b => b.1 == p && b.2 == u) := by
        simp only [List.any_cons, hb]
        simp [Bool.false_or]
      rw [if_neg hb, hany]
      simp

/-- Registration preserves the registry invariant: at most one occurrence per
(prefix, URI) key — the `Vec::contains` guard only pushes unseen keys. -/
theorem countP_registerNamespaces (pos : TextPosition) :
    ∀ (bindings : List (String × String)) (nss : List NamespaceOccurrence),
      (∀ p u, nss.countP (occMatches p u) ≤ 1) →
      ∀ p u, (registerNamespaces nss bindings pos).countP (occMatches p u) ≤ 1 := by
  intro bindings
  induction bindings with
  | nil =>
    intro nss h p u
    rw [registerNamespaces_nil]
    exact h p u
  | cons b bs ih =>
    intro nss h p u
    rw [registerNamespaces_cons]
    refine ih _ ?_ p u
    intro p' u'
    by_cases hg : (nss.any fun o => NamespaceOccurrence.eq o ⟨b.1, b.2, pos⟩) = true
    · rw [if_pos hg]
      exact h p' u'
    · rw [if_neg hg]
      rw [List.countP_append]
      by_cases hm : occMatches p' u' ⟨b.1, b.2, pos⟩ = true
      · have hzero : nss.countP (occMatches p' u') = 0 := by
        -- no registered occurrence matches key (p', u'): otherwise the
        -- contains-guard would have fired for this binding
          rw [List.countP_eq_zero]
          intro o ho hom
          apply hg
          rw [List.any_eq_true]
          refine ⟨o, ho, ?_⟩
          rw [eq_occ_iff_matches]
          have h1 := (Bool.and_eq_true _ _).mp hm
          have hp : b.1 = p' := beq_iff_eq.mp h1.1
          have hu : b.2 = u' := beq_iff_eq.mp h1.2
          rw [occMatches] at hom ⊢
          rw [hp, hu]
          exact hom
        rw [hzero]
        simp [List.countP, List.countP.go, hm]
      · have hone : List.countP (occMatches p' u') [⟨b.1, b.2, pos⟩] = 0 := by
          simp [List.countP, List.countP.go, hm]
        rw [hone]
        simpa using h p' u'

/-- Under the registry invariant, a member with a key is the unique result of
looking that key up. -/
theorem find?_eq_of_countP_le_one {α : Type} (q : α → Bool) :
    ∀ (l : List α) (x : α), l.countP q ≤ 1 → x ∈ l → q x = true →
      l.find? q = some x := by
  intro l
  induction l with
  | nil => intro x _ hx; cases hx
  | cons a t ih =>
    intro x hc hx hq
    by_cases ha : q a = true
    · have hxa : x = a := by
        rcases List.mem_cons.mp hx with h | h
        · exact h
        · exfalso
          have h1 : 1 ≤ t.countP q := by
            have := List.countP_pos_iff.mpr ⟨x, h, hq⟩
            omega
          have : (a :: t).countP q = t.countP q + 1 := by
            simp [List.countP_cons, ha]
          omega
      rw [List.find?_cons_of_pos _ ha, hxa]
    · have hxt : x ∈ t := by
        rcases List.mem_cons.mp hx with h | h
        · exfalso; rw [h] at hq; exact ha hq
        · exact h
      rw [List.find?_cons_of_neg _ ha]
      refine ih x ?_ hxt hq
      have : (a :: t).countP q = t.countP q := by
        simp [List.countP_cons, ha]
      omega

/-- The registry at the end of the pure loop, looked up by key, is the first
position of the key in the consumed part of the stream (on top of what was
already registered). -/
theorem scrapeLoopP_findOcc (find_urls : UrlMatcher) (p u : String) :
    ∀ (stream : List StreamItem) (current_parent : Option OwnedName)
      (nss : List NamespaceOccurrence) (collector : List XmlLink),
      findOcc p u (scrapeLoopP find_urls stream current_parent nss collector).2
        = (findOcc p u nss).or
            ((nsFirstPos p u stream).map
              (fun pos => (⟨p, u, pos⟩ : NamespaceOccurrence))) := by
  intro stream
  induction stream with
  | nil => intro cp nss coll; simp [scrapeLoopP, nsFirstPos]
  | cons item rest ih =>
    intro cp nss coll
    cases item with
    | fail e => simp [scrapeLoopP, nsFirstPos]
    | ok event pos =>
      cases event with
      | StartElement name attributes bindings =>
        show findOcc p u (scrapeLoopP find_urls rest (some name)
            (registerNamespaces nss bindings pos) _).2 = _
        rw [ih, findOcc_registerNamespaces, Option.or_assoc]
        congr 1
        by_cases hb : (bindings.any fun b => b.1 == p && b.2 == u) = true
        · rw [if_pos hb]
          simp only [nsFirstPos]
          rw [if_pos hb]
          rfl
        · rw [if_neg hb]
          rw [Option.none_or]
          simp only [nsFirstPos]
          rw [if_neg hb]
      | Comment text => exact ih _ _ _
      | Characters text => exact ih _ _ _
      | CData text => exact ih _ _ _
      | EndDocument => simp [scrapeLoopP, nsFirstPos]
      | EndElement name => exact ih _ _ _
      | OtherEvent => exact ih _ _ _

/-- The pure loop preserves the at-most-one-per-key registry invariant. -/
theorem scrapeLoopP_countP (find_urls : UrlMatcher) :
    ∀ (stream : List StreamItem) (current_parent : Option OwnedName)
      (nss : List NamespaceOccurrence) (collector : List XmlLink),
      (∀ p u, nss.countP (occMatches p u) ≤ 1) →
      ∀ p u, ((scrapeLoopP find_urls stream current_parent nss collector).2).countP
        (occMatches p u) ≤ 1 := by
  intro stream
  induction stream with
  | nil => intro cp nss coll h p u; exact h p u
  | cons item rest ih =>
    intro cp nss coll h p u
    cases item with
    | fail e => exact h p u
    | ok event pos =>
      cases event with
      | StartElement name attributes bindings =>
        exact ih _ _ _ (countP_registerNamespaces pos bindings nss h) p u
      | Comment text => exact ih _ _ _ h p u
      | Characters text => exact ih _ _ _ h p u
      | CData text => exact ih _ _ _ h p u
      | EndDocument => exact h p u
      | EndElement name => exact ih _ _ _ h p u
      | OtherEvent => exact ih _ _ _ h p u

theorem foldl_append_eq_flatMap {α β : Type} (f : α → List β) :
    ∀ (l : List α) (init : List β),
      l.foldl (fun r a => r ++ f a) init = init ++ l.flatMap f := by
  intro l
  induction l with
  | nil => intro init; simp
  | cons a t ih =>
    intro init
    rw [List.foldl_cons, ih]
    simp

/-- The attribute links of one element, as a flat map. -/
theorem attributeLinks_eq (find_urls : UrlMatcher)
    (attributes : List OwnedAttribute) (pos : TextPosition) :
    attributeLinks find_urls attributes pos
      = attributes.flatMap (fun att => (find_urls att.value).map (fun link =>
          { url := link, location := pos, kind := XmlLinkKind.Attribute att })) := by
  rw [attributeLinks, foldl_append_eq_flatMap]
  rfl

/-- Membership in the attribute links of one element. -/
theorem mem_attributeLinks (find_urls : UrlMatcher)
    (attributes : List OwnedAttribute) (pos : TextPosition) (l : XmlLink) :
    l ∈ attributeLinks find_urls attributes pos ↔
      ∃ att, att ∈ attributes ∧ ∃ url, url ∈ find_urls att.value ∧
        l = { url := url, location := pos, kind := XmlLinkKind.Attribute att } := by
  rw [attributeLinks_eq]
  simp only [List.mem_flatMap, List.mem_map]
  constructor
  · rintro ⟨att, hatt, url, hurl, hl⟩
    exact ⟨att, hatt, url, hurl, hl.symm⟩
  · rintro ⟨att, hatt, url, hurl, hl⟩
    exact ⟨att, hatt, url, hurl, hl.symm⟩

/-- The two per-link facts the loop maintains: it never emits a `NameSpace`
link, and every `Attribute` link's url is a matcher match on that
attribute's value. -/
def LinkProp (find_urls : UrlMatcher) (l : XmlLink) : Prop :=
  (∀ q, l.kind ≠ XmlLinkKind.NameSpace q) ∧
    ∀ att, l.kind = XmlLinkKind.Attribute att → l.url ∈ find_urls att.value

theorem linkProp_attributeLinks (find_urls : UrlMatcher)
    (attributes : List OwnedAttribute) (pos : TextPosition) (l : XmlLink)
    (hl : l ∈ attributeLinks find_urls attributes pos) : LinkProp find_urls l := by
  rcases (mem_attributeLinks find_urls attributes pos l).mp hl with
    ⟨att, _, url, hurl, rfl⟩
  constructor
  · intro q hq; cases hq
  · intro att' hatt'
    cases hatt'
    exact hurl

theorem linkProp_map (find_urls : UrlMatcher) (xs : List String)
    (pos : TextPosition) (K : XmlLinkKind)
    (hK : ∀ q, K ≠ XmlLinkKind.NameSpace q)
    (hA : ∀ att, K ≠ XmlLinkKind.Attribute att) (l : XmlLink)
    (hl : l ∈ xs.map (fun link =>
      ({ url := link, location := pos, kind := K } : XmlLink))) :
    LinkProp find_urls l := by
  rcases List.mem_map.mp hl with ⟨url, _, rfl⟩
  exact ⟨fun q => hK q, fun att h => absurd h (hA att)⟩

/-- Every link the pure loop adds to the collector satisfies `LinkProp`. -/
theorem scrapeLoopP_linkProp (find_urls : UrlMatcher) :
    ∀ (stream : List StreamItem) (current_parent : Option OwnedName)
      (nss : List NamespaceOccurrence) (collector : List XmlLink),
      (∀ l ∈ collector, LinkProp find_urls l) →
      ∀ l ∈ (scrapeLoopP find_urls stream current_parent nss collector).1,
        LinkProp find_urls l := by
  intro stream
  induction stream with
  | nil => intro cp nss coll h l hl; exact h l hl
  | cons item rest ih =>
    intro cp nss coll h l hl
    cases item with
    | fail e => exact h l hl
    | ok event pos =>
      cases event with
      | StartElement name attributes bindings =>
        refine ih _ _ _ ?_ l hl
        intro l' hl'
        rcases List.mem_append.mp hl' with hc | hn
        · exact h l' hc
        · exact linkProp_attributeLinks find_urls attributes pos l' hn
      | Comment text =>
        refine ih _ _ _ ?_ l hl
        intro l' hl'
        rcases List.mem_append.mp hl' with hc | hn
        · exact h l' hc
        · exact linkProp_map find_urls _ pos XmlLinkKind.Comment
            (by intro q hq; cases hq) (by intro att hq; cases hq) l' hn
      | Characters text =>
        refine ih _ _ _ ?_ l hl
        intro l' hl'
        rcases List.mem_append.mp hl' with hc | hn
        · exact h l' hc
        · exact linkProp_map find_urls _ pos (XmlLinkKind.PlainText ⟨cp⟩)
            (by intro q hq; cases hq) (by intro att hq; cases hq) l' hn
      | CData text =>
        refine ih _ _ _ ?_ l hl
        intro l' hl'
        rcases List.mem_append.mp hl' with hc | hn
        · exact h l' hc
        · exact linkProp_map find_urls _ pos (XmlLinkKind.CData ⟨cp⟩)
            (by intro q hq; cases hq) (by intro att hq; cases hq) l' hn
      | EndDocument => exact h l hl
      | EndElement name => exact ih _ _ _ h l hl
      | OtherEvent => exact ih _ _ _ h l hl

/-- Membership in the namespace flush. -/
theorem mem_flushNamespaces (find_urls : UrlMatcher)
    (nss : List NamespaceOccurrence) (l : XmlLink) :
    l ∈ flushNamespaces find_urls nss ↔
      ∃ occ, occ ∈ nss ∧ (find_urls occ.namespace_uri).length ≠ 0 ∧
        l = { url := occ.namespace_uri, location := occ.first_occurrence,
              kind := XmlLinkKind.NameSpace occ.«namespace» } := by
  rw [flushNamespaces]
  rw [List.mem_filterMap]
  constructor
  · rintro ⟨occ, hocc, hf⟩
    by_cases hz : (find_urls occ.namespace_uri).length = 0
    · rw [if_pos hz] at hf; cases hf
    · rw [if_neg hz] at hf
      cases hf
      exact ⟨occ, hocc, hz, rfl⟩
  · rintro ⟨occ, hocc, hz, rfl⟩
    exact ⟨occ, hocc, by rw [if_neg hz]⟩

/-- Every flushed link is a `NameSpace` link. -/
theorem flushNamespaces_kind (find_urls : UrlMatcher)
    (nss : List NamespaceOccurrence) (l : XmlLink)
    (hl : l ∈ flushNamespaces find_urls nss) : ∃ q, l.kind = XmlLinkKind.NameSpace q := by
  rcases (mem_flushNamespaces find_urls nss l).mp hl with ⟨occ, _, _, rfl⟩
  exact ⟨occ.«namespace», rfl⟩

theorem filter_isHref_map_eq_nil (xs : List String) (pos : TextPosition)
    (K : XmlLinkKind) (hK : ∀ u, isHrefAttributeLink ⟨u, pos, K⟩ = false) :
    (xs.map (fun link =>
      ({ url := link, location := pos, kind := K } : XmlLink))).filter
        isHrefAttributeLink = [] := by
  rw [List.filter_eq_nil_iff]
  intro a ha
  rcases List.mem_map.mp ha with ⟨url, _, rfl⟩
  rw [hK url]
  exact Bool.false_ne_true

theorem filter_isHref_flushNamespaces (find_urls : UrlMatcher)
    (nss : List NamespaceOccurrence) :
    (flushNamespaces find_urls nss).filter isHrefAttributeLink = [] := by
  rw [List.filter_eq_nil_iff]
  intro l hl
  rcases flushNamespaces_kind find_urls nss l hl with ⟨q, hq⟩
  intro hc
  rw [isHrefAttributeLink] at hc
  rw [hq] at hc
  cases hc

/-- The href loop computes the href filter of the generic loop's collector. -/
theorem hrefLoopP_filter (find_urls : UrlMatcher) :
    ∀ (stream : List StreamItem) (current_parent : Option OwnedName)
      (nss : List NamespaceOccurrence) (collector : List XmlLink),
      hrefLoopP find_urls stream (collector.filter isHrefAttributeLink)
        = ((scrapeLoopP find_urls stream current_parent nss collector).1).filter
            isHrefAttributeLink := by
  intro stream
  induction stream with
  | nil => intro cp nss coll; rfl
  | cons item rest ih =>
    intro cp nss coll
    cases item with
    | fail e => rfl
    | ok event pos =>
      cases event with
      | StartElement name attributes bindings =>
        show hrefLoopP find_urls rest
            (coll.filter isHrefAttributeLink
              ++ (attributeLinks find_urls attributes pos).filter isHrefAttributeLink)
          = _
        rw [← List.filter_append]
        exact ih (some name) (registerNamespaces nss bindings pos) _
      | Comment text =>
        show hrefLoopP find_urls rest (coll.filter isHrefAttributeLink) = _
        have hnil := filter_isHref_map_eq_nil (find_urls text) pos XmlLinkKind.Comment
          (by intro u; rfl)
        have : coll.filter isHrefAttributeLink
            = (coll ++ (find_urls text).map (fun link =>
                ({ url := link, location := pos,
                   kind := XmlLinkKind.Comment } : XmlLink))).filter isHrefAttributeLink := by
          rw [List.filter_append, hnil, List.append_nil]
        rw [this]
        exact ih cp nss _
      | Characters text =>
        show hrefLoopP find_urls rest (coll.filter isHrefAttributeLink) = _
        have hnil := filter_isHref_map_eq_nil (find_urls text) pos
          (XmlLinkKind.PlainText ⟨cp⟩) (by intro u; rfl)
        have : coll.filter isHrefAttributeLink
            = (coll ++ (find_urls text).map (fun link =>
                ({ url := link, location := pos,
                   kind := XmlLinkKind.PlainText ⟨cp⟩ } : XmlLink))).filter
                isHrefAttributeLink := by
          rw [List.filter_append, hnil, List.append_nil]
        rw [this]
        exact ih cp nss _
      | CData text =>
        show hrefLoopP find_urls rest (coll.filter isHrefAttributeLink) = _
        have hnil := filter_isHref_map_eq_nil (find_urls text) pos
          (XmlLinkKind.CData ⟨cp⟩) (by intro u; rfl)
        have : coll.filter isHrefAttributeLink
            = (coll ++ (find_urls text).map (fun link =>
                ({ url := link, location := pos,
                   kind := XmlLinkKind.CData ⟨cp⟩ } : XmlLink))).filter
                isHrefAttributeLink := by
          rw [List.filter_append, hnil, List.append_nil]
        rw [this]
        exact ih cp nss _
      | EndDocument => rfl
      | EndElement name => exact ih cp nss coll
      | OtherEvent => exact ih cp nss coll

end Xml

namespace XLink

theorem xlinkLoop_nil (fu : UrlMatcher) (c : List XLinkLink) :
    xlinkLoop fu [] c = Except.ok c := by
  simp [xlinkLoop]

theorem xlinkLoop_fail (fu : UrlMatcher) (e : TokenizerError)
    (rest : List StreamItem) (c : List XLinkLink) :
    xlinkLoop fu (StreamItem.fail e :: rest) c = Except.ok c := by
  simp [xlinkLoop]

theorem xlinkLoop_endDocument (fu : UrlMatcher) (pos : TextPosition)
    (rest : List StreamItem) (c : List XLinkLink) :
    xlinkLoop fu (StreamItem.ok XmlEvent.EndDocument pos :: rest) c
      = Except.ok c := by
  simp [xlinkLoop]

theorem xlinkLoop_start_ok (fu : UrlMatcher) (n : OwnedName)
    (a : List OwnedAttribute) (b : List (String × String)) (pos : TextPosition)
    (rest : List StreamItem) (c list : List XLinkLink) (rest2 : List StreamItem)
    (h : scrape_from_start_element fu ⟨n, a, b⟩ pos rest = Except.ok (list, rest2)) :
    xlinkLoop fu (StreamItem.ok (XmlEvent.StartElement n a b) pos :: rest) c
      = xlinkLoop fu rest2 (c ++ list) := by
  rw [xlinkLoop]
  split
  next e heq => rw [h] at heq; cases heq
  next l r heq => rw [h] at heq; cases heq; rfl

theorem xlinkLoop_start_error (fu : UrlMatcher) (n : OwnedName)
    (a : List OwnedAttribute) (b : List (String × String)) (pos : TextPosition)
    (rest : List StreamItem) (c : List XLinkLink) (e : XLinkFormatError)
    (h : scrape_from_start_element fu ⟨n, a, b⟩ pos rest = Except.error e) :
    xlinkLoop fu (StreamItem.ok (XmlEvent.StartElement n a b) pos :: rest) c
      = Except.error e := by
  rw [xlinkLoop]
  split
  next e' heq => rw [h] at heq; cases heq; rfl
  next l r heq => rw [h] at heq; cases heq

theorem xlinkLoop_endElement (fu : UrlMatcher) (n : OwnedName)
    (pos : TextPosition) (rest : List StreamItem) (c : List XLinkLink) :
    xlinkLoop fu (StreamItem.ok (XmlEvent.EndElement n) pos :: rest) c
      = xlinkLoop fu rest c := by
  rw [xlinkLoop]
  all_goals nofun

theorem xlinkLoop_comment (fu : UrlMatcher) (text : String) (pos : TextPosition)
    (rest : List StreamItem) (c : List XLinkLink) :
    xlinkLoop fu (StreamItem.ok (XmlEvent.Comment text) pos :: rest) c
      = xlinkLoop fu rest c := by
  rw [xlinkLoop]
  all_goals nofun

theorem xlinkLoop_characters (fu : UrlMatcher) (text : String)
    (pos : TextPosition) (rest : List StreamItem) (c : List XLinkLink) :
    xlinkLoop fu (StreamItem.ok (XmlEvent.Characters text) pos :: rest) c
      = xlinkLoop fu rest c := by
  rw [xlinkLoop]
  all_goals nofun

theorem xlinkLoop_cdata (fu : UrlMatcher) (text : String) (pos : TextPosition)
    (rest : List StreamItem) (c : List XLinkLink) :
    xlinkLoop fu (StreamItem.ok (XmlEvent.CData text) pos :: rest) c
      = xlinkLoop fu rest c := by
  rw [xlinkLoop]
  all_goals nofun

theorem xlinkLoop_otherEvent (fu : UrlMatcher) (pos : TextPosition)
    (rest : List StreamItem) (c : List XLinkLink) :
    xlinkLoop fu (StreamItem.ok XmlEvent.OtherEvent pos :: rest) c
      = xlinkLoop fu rest c := by
  rw [xlinkLoop]
  all_goals nofun

/-- The per-link fact the xlink scraper maintains for everything except a
locator's verbatim href: the url is a matcher match on some string. -/
def XLinkProp (find_urls : UrlMatcher) (l : XLinkLink) : Prop :=
  l.kind = XLinkLinkKind.Extended ∨ ∃ s, l.url ∈ find_urls s

theorem xlinkProp_scrape_from_option_string (find_urls : UrlMatcher)
    (role : Option String) (k : XLinkLinkKind) (pos : TextPosition)
    (l : XLinkLink) (hl : l ∈ scrape_from_option_string find_urls role k pos) :
    XLinkProp find_urls l := by
  cases role with
  | none => cases hl
  | some r =>
    rcases List.mem_map.mp hl with ⟨url, hurl, rfl⟩
    exact Or.inr ⟨r, hurl⟩

theorem xlinkProp_scrape_from_xlink_simple (find_urls : UrlMatcher)
    (el : XlinkSimpleElement) (pos : TextPosition) (l : XLinkLink)
    (hl : l ∈ scrape_from_xlink_simple find_urls el pos) :
    XLinkProp find_urls l := by
  rw [scrape_from_xlink_simple] at hl
  rcases List.mem_append.mp hl with h | h
  · exact xlinkProp_scrape_from_option_string _ _ _ _ _ h
  · rcases List.mem_append.mp h with h' | h'
    · exact xlinkProp_scrape_from_option_string _ _ _ _ _ h'
    · exact xlinkProp_scrape_from_option_string _ _ _ _ _ h'

theorem xlinkProp_extendedLoop (find_urls : UrlMatcher) (extName : OwnedName) :
    ∀ (stream : List StreamItem) (acc links : List XLinkLink)
      (rest : List StreamItem),
      (∀ l ∈ acc, XLinkProp find_urls l) →
      extendedLoop find_urls extName stream acc = Except.ok (links, rest) →
      ∀ l ∈ links, XLinkProp find_urls l := by
  intro stream
  induction stream with
  | nil =>
    intro acc links rest hacc h
    simp only [extendedLoop] at h
    cases h
    exact hacc
  | cons item tail ih =>
    intro acc links rest hacc h
    cases item with
    | fail e =>
      simp only [extendedLoop] at h
      cases h
      exact hacc
    | ok event pos =>
      cases event with
      | StartElement name attributes bindings =>
        simp only [extendedLoop] at h
        cases hc : try_from_xml_start_element ⟨name, attributes, bindings⟩ with
        | error e => rw [hc] at h; cases h
        | ok oe =>
          rw [hc] at h
          cases oe with
          | none => exact ih _ _ _ hacc h
          | some xe =>
            cases xe with
            | Simple element => cases h
            | Extended element => cases h
            | Locator element =>
              refine ih _ _ _ ?_ h
              intro l hl
              rcases List.mem_append.mp hl with hc' | hc'
              · exact hacc l hc'
              · rcases List.mem_cons.mp hc' with rfl | hc''
                · exact Or.inl rfl
                · exact xlinkProp_scrape_from_option_string _ _ _ _ _ hc''
            | Arc element =>
              refine ih _ _ _ ?_ h
              intro l hl
              rcases List.mem_append.mp hl with hc' | hc'
              · exact hacc l hc'
              · exact xlinkProp_scrape_from_option_string _ _ _ _ _ hc'
            | Resource element =>
              refine ih _ _ _ ?_ h
              intro l hl
              rcases List.mem_append.mp hl with hc' | hc'
              · exact hacc l hc'
              · exact xlinkProp_scrape_from_option_string _ _ _ _ _ hc'
            | Title => exact ih _ _ _ hacc h
      | EndElement name =>
        simp only [extendedLoop] at h
        by_cases hn : name = extName
        · rw [if_pos hn] at h
          cases h
          exact hacc
        · rw [if_neg hn] at h
          exact ih _ _ _ hacc h
      | Comment text => exact ih _ _ _ hacc h
      | Characters text => exact ih _ _ _ hacc h
      | CData text => exact ih _ _ _ hacc h
      | EndDocument => exact ih _ _ _ hacc h
      | OtherEvent => exact ih _ _ _ hacc h

theorem xlinkProp_scrape_from_start_element (find_urls : UrlMatcher)
    (el : XmlStartElement) (pos : TextPosition) (stream : List StreamItem)
    (links : List XLinkLink) (rest : List StreamItem)
    (h : scrape_from_start_element find_urls el pos stream
      = Except.ok (links, rest)) :
    ∀ l ∈ links, XLinkProp find_urls l := by
  unfold scrape_from_start_element at h
  cases hc : try_from_xml_start_element el with
  | error e => rw [hc] at h; cases h
  | ok oe =>
    rw [hc] at h
    cases oe with
    | none => cases h; intro l hl; cases hl
    | some xe =>
      cases xe with
      | Simple element =>
        cases h
        intro l hl
        exact xlinkProp_scrape_from_xlink_simple find_urls element pos l hl
      | Extended element =>
        intro l hl
        refine xlinkProp_extendedLoop find_urls element.xml.name stream _ _ _
          ?_ h l hl
        intro l' hl'
        exact xlinkProp_scrape_from_option_string _ _ _ _ _ hl'
      | Locator element => cases h
      | Arc element => cases h
      | Resource element => cases h
      | Title => cases h; intro l hl; cases hl

/-- Every link returned by the xlink event loop satisfies `XLinkProp`,
provided the incoming collector does. -/
theorem xlinkProp_xlinkLoop (find_urls : UrlMatcher) :
    ∀ (n : Nat) (stream : List StreamItem), stream.length ≤ n →
      ∀ (collector links : List XLinkLink),
      (∀ l ∈ collector, XLinkProp find_urls l) →
      xlinkLoop find_urls stream collector = Except.ok links →
      ∀ l ∈ links, XLinkProp find_urls l := by
  intro n
  induction n with
  | zero =>
    intro stream hlen collector links hcoll h
    have : stream = [] := List.length_eq_zero.mp (Nat.le_zero.mp hlen)
    subst this
    rw [xlinkLoop_nil] at h
    cases h
    exact hcoll
  | succ m ih =>
    intro stream hlen collector links hcoll h
    cases stream with
    | nil =>
      rw [xlinkLoop_nil] at h
      cases h
      exact hcoll
    | cons item rest =>
      cases item with
      | fail e =>
        rw [xlinkLoop_fail] at h
        cases h
        exact hcoll
      | ok event pos =>
        have hrest : rest.length ≤ m := by
          simp only [List.length_cons] at hlen
          omega
        cases event with
        | StartElement name attributes bindings =>
          cases hsc : scrape_from_start_element find_urls
              ⟨name, attributes, bindings⟩ pos rest with
          | error e =>
            rw [xlinkLoop_start_error _ _ _ _ _ _ _ _ hsc] at h
            cases h
          | ok res =>
            rcases res with ⟨list, rest2⟩
            rw [xlinkLoop_start_ok _ _ _ _ _ _ _ _ _ hsc] at h
            have hrest2 : rest2.length ≤ m := by
              have := scrape_from_start_element_rest_length_le find_urls
                ⟨name, attributes, bindings⟩ pos rest list rest2 hsc
              omega
            refine ih rest2 hrest2 _ links ?_ h
            intro l hl
            rcases List.mem_append.mp hl with hc | hc
            · exact hcoll l hc
            · exact xlinkProp_scrape_from_start_element find_urls _ pos rest
                list rest2 hsc l hc
        | EndElement name =>
          rw [xlinkLoop_endElement] at h
          exact ih rest hrest _ links hcoll h
        | Comment text =>
          rw [xlinkLoop_comment] at h
          exact ih rest hrest _ links hcoll h
        | Characters text =>
          rw [xlinkLoop_characters] at h
          exact ih rest hrest _ links hcoll h
        | CData text =>
          rw [xlinkLoop_cdata] at h
          exact ih rest hrest _ links hcoll h
        | EndDocument =>
          rw [xlinkLoop_endDocument] at h
          cases h
          exact hcoll
        | OtherEvent =>
          rw [xlinkLoop_otherEvent] at h
          exact ih rest hrest _ links hcoll h

end XLink

namespace Xml

/-- Does a link count as a `NameSpace` link binding prefix `p` to URI `u`? -/
def isNsLink (p u : String) (l : XmlLink) : Bool :=
  match l.kind with
  | XmlLinkKind.NameSpace q => q == p && l.url == u
  | _ => false

theorem isNsLink_eq_false_of_not_ns (p u : String) (l : XmlLink)
    (h : ∀ q, l.kind ≠ XmlLinkKind.NameSpace q) : isNsLink p u l = false := by
  rcases l with ⟨url, loc, kind⟩
  cases kind with
  | NameSpace q => exact absurd rfl (h q)
  | Attribute att => rfl
  | Comment => rfl
  | PlainText parent => rfl
  | CData parent => rfl

theorem flushNamespaces_cons (find_urls : UrlMatcher)
    (occ : NamespaceOccurrence) (t : List NamespaceOccurrence) :
    flushNamespaces find_urls (occ :: t)
      = (if (find_urls occ.namespace_uri).length = 0 then []
         else [⟨occ.namespace_uri, occ.first_occurrence,
           XmlLinkKind.NameSpace occ.«namespace»⟩])
        ++ flushNamespaces find_urls t := by
  show List.filterMap _ (occ :: t) = _
  rw [List.filterMap_cons]
  by_cases hz : (find_urls occ.namespace_uri).length = 0
  · rw [if_pos hz, if_pos hz]
    rfl
  · rw [if_neg hz, if_neg hz]
    rfl

/-- Each flushed `NameSpace` link that matches a (prefix, URI) key comes from
a registry entry matching that key, so the flush emits at most as many such
links as the registry holds entries for the key. -/
theorem length_filter_flush_le_countP (find_urls : UrlMatcher) (p u : String) :
    ∀ nss : List NamespaceOccurrence,
      ((flushNamespaces find_urls nss).filter (isNsLink p u)).length
      ≤ nss.countP (occMatches p u) := by
  intro nss
  induction nss with
  | nil => simp [flushNamespaces]
  | cons occ t ih =>
    rw [flushNamespaces_cons, List.filter_append, List.length_append]
    have hcount : (occ :: t).countP (occMatches p u)
        = t.countP (occMatches p u) + (if occMatches p u occ then 1 else 0) := by
      simp [List.countP_cons]
    have hiff : isNsLink p u ⟨occ.namespace_uri, occ.first_occurrence,
        XmlLinkKind.NameSpace occ.«namespace»⟩ = occMatches p u occ := rfl
    by_cases hz : (find_urls occ.namespace_uri).length = 0
    · rw [if_pos hz]
      simp only [List.filter_nil, List.length_nil, Nat.zero_add]
      omega
    · rw [if_neg hz]
      by_cases hm : occMatches p u occ = true
      · have hone : (List.filter (isNsLink p u) [⟨occ.namespace_uri,
            occ.first_occurrence, XmlLinkKind.NameSpace occ.«namespace»⟩]).length
            = 1 := by
          simp [List.filter_cons, hiff, hm]
        rw [hm] at hcount
        simp only [if_true] at hcount
        omega
      · have hzero : (List.filter (isNsLink p u) [⟨occ.namespace_uri,
            occ.first_occurrence, XmlLinkKind.NameSpace occ.«namespace»⟩]).length
            = 0 := by
          simp [List.filter_cons, hiff, hm]
        rw [Bool.not_eq_true] at hm
        rw [hm] at hcount
        simp only [Bool.false_eq_true, if_false] at hcount
        omega

/-- The stack of currently open elements after consuming a stream prefix:
each start element pushes its name, each element end pops. The head, when
present, is the element enclosing whatever comes next — the spec's notion of
"the current enclosing element" used to compare against the code's
`current_parent` tracking. -/
def openElements : List StreamItem → List OwnedName → List OwnedName
  | [], stack => stack
  | StreamItem.ok (XmlEvent.StartElement name _ _) _ :: rest, stack =>
    openElements rest (name :: stack)
  | StreamItem.ok (XmlEvent.EndElement _) _ :: rest, stack =>
    openElements rest stack.tail
  | _ :: rest, stack => openElements rest stack

end Xml

/-- A concrete URL matcher for witnesses and counterexamples: a fixed table
of URL-shaped strings, everything else yields no match. -/
def demoMatcher : UrlMatcher := fun text =>
  if text = "https://attribute.test.com" then ["https://attribute.test.com"]
  else if text = "https://ns.test/" then ["https://ns.test/"]
  else if text = "https://role.test.com/" then ["https://role.test.com/"]
  else if text = "https://simple.test.com" then ["https://simple.test.com"]
  else if text = "https://y.test/" then ["https://y.test/"]
  else if text = "https://extended.test.com/" then ["https://extended.test.com/"]
  else []

/-- Concrete positions for the fixture streams. -/
def p1 : TextPosition := ⟨1, 0⟩
def p2 : TextPosition := ⟨2, 0⟩
def p3 : TextPosition := ⟨3, 0⟩
def p4 : TextPosition := ⟨4, 0⟩
def p5 : TextPosition := ⟨5, 0⟩
def p6 : TextPosition := ⟨6, 0⟩
def p7 : TextPosition := ⟨7, 0⟩

/-- Concrete element names for the fixture streams. -/
def nA : OwnedName := ⟨"a", none, none⟩
def nB : OwnedName := ⟨"b", none, none⟩
def nExt : OwnedName := ⟨"ext", none, none⟩
def nLoc : OwnedName := ⟨"loc", none, none⟩
def nArc : OwnedName := ⟨"arc", none, none⟩
def nRes : OwnedName := ⟨"res", none, none⟩
def nSimp : OwnedName := ⟨"simp2", none, none⟩

/-- A plain (non-namespaced) `href` attribute holding a URL-shaped value. -/
def hrefAtt : OwnedAttribute := ⟨⟨"href", none, none⟩, "https://attribute.test.com"⟩

/-- An `xlink:type` attribute with the given value. -/
def typeAtt (v : String) : OwnedAttribute :=
  ⟨⟨"type", some XLink.XLINK_NAMESPACE, some "xlink"⟩, v⟩

/-- An `xlink:href` attribute with the given value. -/
def hrefXAtt (v : String) : OwnedAttribute :=
  ⟨⟨"href", some XLink.XLINK_NAMESPACE, some "xlink"⟩, v⟩

/-- An `xlink:role` attribute with the given value. -/
def roleXAtt (v : String) : OwnedAttribute :=
  ⟨⟨"role", some XLink.XLINK_NAMESPACE, some "xlink"⟩, v⟩

/-- An `xlink:arcrole` attribute with the given value. -/
def arcroleXAtt (v : String) : OwnedAttribute :=
  ⟨⟨"arcrole", some XLink.XLINK_NAMESPACE, some "xlink"⟩, v⟩

/-- An element start followed by a fatal tokenizer error (a truncated
document). -/
def c1XmlInput : List StreamItem :=
  [StreamItem.ok (XmlEvent.StartElement nA [hrefAtt] []) p1,
   StreamItem.fail ⟨"unexpected end of stream"⟩]

/-- An xlink simple element followed by a fatal tokenizer error. -/
def c1XlinkInput : List StreamItem :=
  [StreamItem.ok (XmlEvent.StartElement nSimp
      [typeAtt "simple", hrefXAtt "https://simple.test.com"] []) p1,
   StreamItem.fail ⟨"unexpected end of stream"⟩]

/-- The same (prefix, URI) namespace binding in scope at two nested start
elements. -/
def c2Input : List StreamItem :=
  [StreamItem.ok (XmlEvent.StartElement nA [] [("p", "https://ns.test/")]) p1,
   StreamItem.ok (XmlEvent.StartElement nB [] [("p", "https://ns.test/")]) p2,
   StreamItem.ok (XmlEvent.EndElement nB) p3,
   StreamItem.ok (XmlEvent.EndElement nA) p4,
   StreamItem.ok XmlEvent.EndDocument p5]

/-- An extended element wrapping a locator whose `href` is not URL-shaped. -/
def c3Input : List StreamItem :=
  [StreamItem.ok (XmlEvent.StartElement nExt [typeAtt "extended"] []) p1,
   StreamItem.ok (XmlEvent.StartElement nLoc
      [typeAtt "locator", hrefXAtt "not-a-url"] []) p2,
   StreamItem.ok (XmlEvent.EndElement nExt) p3,
   StreamItem.ok XmlEvent.EndDocument p4]

/-- The event stream of `<a><b>x</b>https://y.test/</a>`: the second text
node is enclosed by `a`, while the most recently started element is `b`. -/
def c6Input : List StreamItem :=
  [StreamItem.ok (XmlEvent.StartElement nA [] []) p1,
   StreamItem.ok (XmlEvent.StartElement nB [] []) p2,
   StreamItem.ok (XmlEvent.Characters "x") p3,
   StreamItem.ok (XmlEvent.EndElement nB) p4,
   StreamItem.ok (XmlEvent.Characters "https://y.test/") p5,
   StreamItem.ok (XmlEvent.EndElement nA) p6,
   StreamItem.ok XmlEvent.EndDocument p7]

/-- An element with both a URL-shaped attribute and a namespace binding. -/
def c7Input : List StreamItem :=
  [StreamItem.ok (XmlEvent.StartElement nA [hrefAtt] [("p", "https://ns.test/")]) p1,
   StreamItem.ok (XmlEvent.EndElement nA) p2,
   StreamItem.ok XmlEvent.EndDocument p3]

/-- Shared evaluation of the xlink scrape on `c1XlinkInput`: the simple
element's link is collected, then the tokenizer failure silently stops the
loop and the collected links are returned as `Ok`. -/
theorem scrape_c1XlinkInput_eq :
    XLink.scrape demoMatcher c1XlinkInput
      = Except.ok [⟨"https://simple.test.com", p1, XLink.XLinkLinkKind.Simple⟩] := by
  show XLink.xlinkLoop demoMatcher c1XlinkInput [] = _
  rw [show c1XlinkInput = StreamItem.ok (XmlEvent.StartElement nSimp
      [typeAtt "simple", hrefXAtt "https://simple.test.com"] []) p1 ::
      [StreamItem.fail ⟨"unexpected end of stream"⟩] from rfl]
  rw [XLink.xlinkLoop_start_ok demoMatcher nSimp
    [typeAtt "simple", hrefXAtt "https://simple.test.com"] [] p1 _ _
    [⟨"https://simple.test.com", p1, XLink.XLinkLinkKind.Simple⟩]
    [StreamItem.fail ⟨"unexpected end of stream"⟩] (by decide)]
  rw [XLink.xlinkLoop_fail]
  rfl

/-- Claim C1: the claim says a fatal tokenizer error is surfaced as the
scraper's error and all links are discarded. The code does the opposite: the
`while let Ok(...)` loops swallow the error, so on an input whose tokenizer
stream is an element followed by a fatal error both scrapes return `Ok` with
the links collected before the failure — the dedicated
`XmlReaderError(#[from] xml::reader::Error)` variants of both error enums are
unreachable. This theorem evaluates both scrapes at such a failing input. -/
theorem C1_tokenizer_error_swallowed_not_surfaced :
    Xml.scrape demoMatcher c1XmlInput
      = Except.ok [⟨"https://attribute.test.com", p1, XmlLinkKind.Attribute hrefAtt⟩]
    ∧ XLink.scrape demoMatcher c1XlinkInput
      = Except.ok [⟨"https://simple.test.com", p1, XLink.XLinkLinkKind.Simple⟩] :=
  ⟨by decide, scrape_c1XlinkInput_eq⟩

/-- Claim C10: the generic XML scrape returns `Ok` on every input stream: a
tokenizer failure merely terminates the event loop with the links collected
so far (the namespace flush still runs on the result), and the
attribute-scraping helper always returns `Ok`, so the error branch is
unreachable. -/
theorem C10_generic_scrape_always_ok (find_urls : UrlMatcher)
    (stream : List StreamItem) :
    (∃ links, Xml.scrape find_urls stream = Except.ok links)
    ∧ (∀ (e : TokenizerError) (rest : List StreamItem)
        (current_parent : Option OwnedName)
        (nss : List NamespaceOccurrence) (collector : List XmlLink),
        Xml.scrapeLoop find_urls (StreamItem.fail e :: rest) current_parent nss
          collector = Except.ok (collector, nss))
    ∧ (∀ (attributes : List OwnedAttribute) (pos : TextPosition),
        Xml.scrape_from_xml_start_element_attributes find_urls attributes pos
          = Except.ok (Xml.attributeLinks find_urls attributes pos)) :=
  ⟨⟨_, Xml.scrape_eq_ok find_urls stream⟩,
   fun _ _ _ _ _ => rfl,
   fun _ _ => rfl⟩

/-- Claim C9: on every input stream, `scrape_from_href_tags` returns exactly
the generic scrape's output restricted to `Attribute` links whose attribute's
local name is `href` (prefix and namespace ignored), in the same order with
the same payloads. -/
theorem C9_href_scrape_is_filtered_generic_scrape (find_urls : UrlMatcher)
    (stream : List StreamItem) :
    Xml.scrape_from_href_tags find_urls stream
      = Except.map (fun links => links.filter Xml.isHrefAttributeLink)
          (Xml.scrape find_urls stream) := by
  rw [Xml.scrape_eq_ok]
  show Xml.hrefLoop find_urls stream [] = _
  rw [Xml.hrefLoop_eq_ok]
  show Except.ok _ = Except.ok _
  congr 1
  show Xml.hrefLoopP find_urls stream []
    = ((Xml.scrapeLoopP find_urls stream none [] []).1
        ++ Xml.flushNamespaces find_urls
            (Xml.scrapeLoopP find_urls stream none [] []).2).filter
        Xml.isHrefAttributeLink
  rw [List.filter_append, Xml.filter_isHref_flushNamespaces, List.append_nil]
  exact Xml.hrefLoopP_filter find_urls stream none [] []

/-- Claim C7: after the event stream ends, the generic scrape appends, for
each accumulated namespace occurrence whose URI has at least one matcher
match, one `NameSpace` link carrying the whole URI at the occurrence's
first-seen position (occurrences with no match contribute nothing), and all
these flushed links come after every link of the other kinds. -/
theorem C7_namespace_flush_appended_last (find_urls : UrlMatcher)
    (stream : List StreamItem) :
    Xml.scrapeLoop find_urls stream none [] []
      = Except.ok (Xml.scrapeLoopP find_urls stream none [] [])
    ∧ Xml.scrape find_urls stream
      = Except.ok ((Xml.scrapeLoopP find_urls stream none [] []).1
          ++ Xml.flushNamespaces find_urls (Xml.scrapeLoopP find_urls stream none [] []).2)
    ∧ (∀ nss, Xml.flushNamespaces find_urls nss
        = nss.filterMap (fun occ =>
            if (find_urls occ.namespace_uri).length = 0 then none
            else some ⟨occ.namespace_uri, occ.first_occurrence,
              XmlLinkKind.NameSpace occ.«namespace»⟩))
    ∧ ∀ l ∈ (Xml.scrapeLoopP find_urls stream none [] []).1,
        ∀ q, l.kind ≠ XmlLinkKind.NameSpace q :=
  ⟨Xml.scrapeLoop_eq_ok find_urls stream none [] [],
   Xml.scrape_eq_ok find_urls stream,
   fun _ => rfl,
   fun l hl q =>
     (Xml.scrapeLoopP_linkProp find_urls stream none [] []
       (fun _ hl' => absurd hl' (List.not_mem_nil _)) l hl).1 q⟩

/-- Witness for C7 at a concrete input: the attribute link collected during
the pass is not a `NameSpace` link (so it precedes the flush). -/
theorem C7_namespace_flush_appended_last_witness :
    (⟨"https://attribute.test.com", p1, XmlLinkKind.Attribute hrefAtt⟩ : XmlLink)
      ∈ (Xml.scrapeLoopP demoMatcher c7Input none [] []).1
    ∧ ∀ q, (⟨"https://attribute.test.com", p1,
        XmlLinkKind.Attribute hrefAtt⟩ : XmlLink).kind ≠ XmlLinkKind.NameSpace q :=
  ⟨by decide,
   (C7_namespace_flush_appended_last demoMatcher c7Input).2.2.2
     ⟨"https://attribute.test.com", p1, XmlLinkKind.Attribute hrefAtt⟩ (by decide)⟩

/-- Counterexample to claim C6 as stated: in `<a><b>x</b>https://y.test/</a>`
the second text node is enclosed by `a` (the open-element stack right before
it is `[a]`), yet the emitted `PlainText` link is tagged with `b` — the code
tracks the most recently started element and never resets it on element
ends. -/
theorem C6_counterexample_tag_not_enclosing_element :
    Xml.scrape demoMatcher c6Input
      = Except.ok [⟨"https://y.test/", p5, XmlLinkKind.PlainText ⟨some nB⟩⟩]
    ∧ Xml.openElements (c6Input.take 4) [] = [nA]
    ∧ nB ≠ nA := by
  refine ⟨by decide, by decide, by decide⟩

/-- Claim C6 as amended: `PlainText` (resp. `CData`) links are tagged with
the most recently started element at the time of the text event — element
ends never reset the tracker, so this can differ from the actually enclosing
element — and the tag is absent exactly until the first start element has
been processed (`scrape` enters its loop with `current_parent = none`, only
a start element replaces it, always with `some` name). -/
theorem C6_text_links_tagged_with_last_started_element (find_urls : UrlMatcher)
    (text : String) (pos : TextPosition) (rest : List StreamItem)
    (current_parent : Option OwnedName) (nss : List NamespaceOccurrence)
    (collector : List XmlLink) (name : OwnedName)
    (attributes : List OwnedAttribute) (bindings : List (String × String))
    (stream : List StreamItem) :
    Xml.scrapeLoop find_urls (StreamItem.ok (XmlEvent.Characters text) pos :: rest)
        current_parent nss collector
      = Xml.scrapeLoop find_urls rest current_parent nss
          (collector ++ (find_urls text).map (fun link =>
            ⟨link, pos, XmlLinkKind.PlainText ⟨current_parent⟩⟩))
    ∧ Xml.scrapeLoop find_urls (StreamItem.ok (XmlEvent.CData text) pos :: rest)
        current_parent nss collector
      = Xml.scrapeLoop find_urls rest current_parent nss
          (collector ++ (find_urls text).map (fun link =>
            ⟨link, pos, XmlLinkKind.CData ⟨current_parent⟩⟩))
    ∧ Xml.scrapeLoop find_urls
        (StreamItem.ok (XmlEvent.StartElement name attributes bindings) pos :: rest)
        current_parent nss collector
      = Xml.scrapeLoop find_urls rest (some name)
          (Xml.registerNamespaces nss bindings pos)
          (collector ++ Xml.attributeLinks find_urls attributes pos)
    ∧ Xml.scrapeLoop find_urls (StreamItem.ok (XmlEvent.EndElement name) pos :: rest)
        current_parent nss collector
      = Xml.scrapeLoop find_urls rest current_parent nss collector
    ∧ Xml.scrape find_urls stream
      = Except.ok ((Xml.scrapeLoopP find_urls stream none [] []).1
          ++ Xml.flushNamespaces find_urls
              (Xml.scrapeLoopP find_urls stream none [] []).2) :=
  ⟨rfl, rfl, rfl, rfl, Xml.scrape_eq_ok find_urls stream⟩

/-- Claim C2: the generic scrape emits at most one `NameSpace` link per
(prefix, URI) pair — duplicate detection compares only prefix and URI, never
position — and every emitted `NameSpace` link sits at the position of the
first start element (within the consumed part of the stream) whose in-scope
bindings contained that pair. -/
theorem C2_namespace_links_unique_at_first_position (find_urls : UrlMatcher)
    (stream : List StreamItem) (links : List XmlLink)
    (h : Xml.scrape find_urls stream = Except.ok links) (p u : String) :
    (links.filter (Xml.isNsLink p u)).length ≤ 1
    ∧ ∀ l ∈ links, l.kind = XmlLinkKind.NameSpace p → l.url = u →
        Xml.nsFirstPos p u stream = some l.location := by
  rw [Xml.scrape_eq_ok] at h
  injection h with h
  subst h
  have hnilProp : ∀ l ∈ ([] : List XmlLink), Xml.LinkProp find_urls l :=
    fun _ hx => absurd hx (List.not_mem_nil _)
  have hcount := Xml.scrapeLoopP_countP find_urls stream none [] []
    (by intro p' u'; simp) p u
  constructor
  · rw [List.filter_append, List.length_append]
    have hC : ((Xml.scrapeLoopP find_urls stream none [] []).1.filter
        (Xml.isNsLink p u)) = [] := by
      rw [List.filter_eq_nil_iff]
      intro l hl hpred
      have hprop := Xml.scrapeLoopP_linkProp find_urls stream none [] []
        hnilProp l hl
      rw [Xml.isNsLink_eq_false_of_not_ns p u l hprop.1] at hpred
      cases hpred
    rw [hC]
    have hF := Xml.length_filter_flush_le_countP find_urls p u
      (Xml.scrapeLoopP find_urls stream none [] []).2
    simp only [List.length_nil, Nat.zero_add]
    omega
  · intro l hl hkind hurl
    rcases List.mem_append.mp hl with hc | hf
    · have hprop := Xml.scrapeLoopP_linkProp find_urls stream none [] []
        hnilProp l hc
      exact absurd hkind (hprop.1 p)
    · rcases (Xml.mem_flushNamespaces find_urls _ l).mp hf with ⟨occ, hocc, hnz, rfl⟩
      have hns : occ.«namespace» = p := by
        injection hkind
      have huri : occ.namespace_uri = u := hurl
      have hmatch : Xml.occMatches p u occ = true := by
        simp [Xml.occMatches, hns, huri]
      have hfind : List.find? (Xml.occMatches p u)
          (Xml.scrapeLoopP find_urls stream none [] []).2 = some occ :=
        Xml.find?_eq_of_countP_le_one _ _ occ hcount hocc hmatch
      have hchar := Xml.scrapeLoopP_findOcc find_urls p u stream none [] []
      rw [Xml.findOcc, hfind,
        show Xml.findOcc p u [] = none from rfl, Option.none_or] at hchar
      cases hpos : Xml.nsFirstPos p u stream with
      | none =>
        rw [hpos] at hchar
        cases hchar
      | some pos0 =>
        rw [hpos] at hchar
        injection hchar with hocc'
        show some pos0 = some occ.first_occurrence
        rw [hocc']

/-- Witness for C2 at a concrete input: the binding `p → https://ns.test/`
appears at two nested elements but yields exactly one `NameSpace` link, at
the first element's position. -/
theorem C2_namespace_links_unique_at_first_position_witness :
    Xml.scrape demoMatcher c2Input
      = Except.ok [⟨"https://ns.test/", p1, XmlLinkKind.NameSpace "p"⟩]
    ∧ (([⟨"https://ns.test/", p1, XmlLinkKind.NameSpace "p"⟩] :
        List XmlLink).filter (Xml.isNsLink "p" "https://ns.test/")).length ≤ 1
    ∧ Xml.nsFirstPos "p" "https://ns.test/" c2Input = some p1 :=
  ⟨by decide,
   (C2_namespace_links_unique_at_first_position demoMatcher c2Input
     [⟨"https://ns.test/", p1, XmlLinkKind.NameSpace "p"⟩] (by decide)
     "p" "https://ns.test/").1,
   (C2_namespace_links_unique_at_first_position demoMatcher c2Input
     [⟨"https://ns.test/", p1, XmlLinkKind.NameSpace "p"⟩] (by decide)
     "p" "https://ns.test/").2
     ⟨"https://ns.test/", p1, XmlLinkKind.NameSpace "p"⟩ (by decide) rfl rfl⟩

/-- Counterexample to claim C3 as stated: a locator's `href` attribute whose
value yields no URL-matcher match still produces a link — the xlink scraper
emits the href verbatim as an `Extended`-kind link, so "no link is emitted
for that attribute by any scraper" is false. -/
theorem C3_counterexample_locator_href_unfiltered :
    XLink.scrape demoMatcher c3Input
      = Except.ok [⟨"not-a-url", p2, XLink.XLinkLinkKind.Extended⟩]
    ∧ demoMatcher "not-a-url" = [] := by
  constructor
  · show XLink.xlinkLoop demoMatcher c3Input [] = _
    rw [show c3Input = StreamItem.ok
        (XmlEvent.StartElement nExt [typeAtt "extended"] []) p1 ::
        [StreamItem.ok (XmlEvent.StartElement nLoc
          [typeAtt "locator", hrefXAtt "not-a-url"] []) p2,
         StreamItem.ok (XmlEvent.EndElement nExt) p3,
         StreamItem.ok XmlEvent.EndDocument p4] from rfl]
    rw [XLink.xlinkLoop_start_ok demoMatcher nExt [typeAtt "extended"] [] p1 _ _
      [⟨"not-a-url", p2, XLink.XLinkLinkKind.Extended⟩]
      [StreamItem.ok XmlEvent.EndDocument p4] (by decide)]
    rw [XLink.xlinkLoop_endDocument]
    rfl
  · decide

/-- Claim C3 as amended: an attribute on which the URL matcher finds nothing
yields no link for that attribute, in any scraper and any context, with the
single exception of a locator's `href` in the xlink scraper, which is emitted
verbatim as an `Extended`-kind link. Concretely: every `Attribute` link of
the generic scrape has a url that is a matcher match on that attribute's
value; in the xlink scrape, every `Simple`/`Role`/`ArcRole` emission passes
exactly the respective attribute's value through
`scrape_from_option_string`, and that helper returns no link when the
attribute is absent or when the matcher returns the empty sequence on its
value — so a matcher-empty attribute contributes no link. The locator step
equation exhibits the one exception: the `href` enters the output directly,
its optional `role` again only through the helper. (In addition, every
non-`Extended` xlink link's url is a matcher match.) -/
theorem C3_non_url_attributes_yield_no_links_amended (find_urls : UrlMatcher)
    (stream : List StreamItem) :
    (∀ links, Xml.scrape find_urls stream = Except.ok links →
      ∀ l ∈ links, ∀ att, l.kind = XmlLinkKind.Attribute att →
        l.url ∈ find_urls att.value)
    ∧ (∀ links, XLink.scrape find_urls stream = Except.ok links →
      ∀ l ∈ links, l.kind ≠ XLink.XLinkLinkKind.Extended →
        ∃ s, l.url ∈ find_urls s)
    ∧ (∀ (k : XLink.XLinkLinkKind) (pos : TextPosition),
        XLink.scrape_from_option_string find_urls none k pos = [])
    ∧ (∀ (v : String) (k : XLink.XLinkLinkKind) (pos : TextPosition),
        find_urls v = [] →
        XLink.scrape_from_option_string find_urls (some v) k pos = [])
    ∧ (∀ (el : XLink.XlinkSimpleElement) (pos : TextPosition),
        XLink.scrape_from_xlink_simple find_urls el pos
          = XLink.scrape_from_option_string find_urls el.href
              XLink.XLinkLinkKind.Simple pos
            ++ (XLink.scrape_from_option_string find_urls el.arcrole
                  XLink.XLinkLinkKind.ArcRole pos
              ++ XLink.scrape_from_option_string find_urls el.role
                  XLink.XLinkLinkKind.Role pos))
    ∧ (∀ (el : XLink.XlinkExtendedElement) (pos : TextPosition)
        (s2 : List StreamItem),
        XLink.scrape_from_xlink_extended find_urls el pos s2
          = XLink.extendedLoop find_urls el.xml.name s2
              (XLink.scrape_from_option_string find_urls el.role
                XLink.XLinkLinkKind.Role pos))
    ∧ (∀ (extName n2 : OwnedName) (attributes : List OwnedAttribute)
        (bindings : List (String × String)) (pos : TextPosition)
        (rest : List StreamItem) (acc : List XLink.XLinkLink)
        (href : String) (role : Option String),
        XLink.try_from_xml_start_element ⟨n2, attributes, bindings⟩
          = Except.ok (some (XLink.XlinkElement.Locator ⟨href, role⟩)) →
        XLink.extendedLoop find_urls extName
          (StreamItem.ok (XmlEvent.StartElement n2 attributes bindings) pos :: rest)
          acc
          = XLink.extendedLoop find_urls extName rest
              (acc ++ (⟨href, pos, XLink.XLinkLinkKind.Extended⟩ ::
                XLink.scrape_from_option_string find_urls role
                  XLink.XLinkLinkKind.Role pos)))
    ∧ (∀ (extName n2 : OwnedName) (attributes : List OwnedAttribute)
        (bindings : List (String × String)) (pos : TextPosition)
        (rest : List StreamItem) (acc : List XLink.XLinkLink)
        (arcrole : Option String),
        XLink.try_from_xml_start_element ⟨n2, attributes, bindings⟩
          = Except.ok (some (XLink.XlinkElement.Arc ⟨arcrole⟩)) →
        XLink.extendedLoop find_urls extName
          (StreamItem.ok (XmlEvent.StartElement n2 attributes bindings) pos :: rest)
          acc
          = XLink.extendedLoop find_urls extName rest
              (acc ++ XLink.scrape_from_option_string find_urls arcrole
                XLink.XLinkLinkKind.ArcRole pos))
    ∧ (∀ (extName n2 : OwnedName) (attributes : List OwnedAttribute)
        (bindings : List (String × String)) (pos : TextPosition)
        (rest : List StreamItem) (acc : List XLink.XLinkLink)
        (role : Option String),
        XLink.try_from_xml_start_element ⟨n2, attributes, bindings⟩
          = Except.ok (some (XLink.XlinkElement.Resource ⟨role⟩)) →
        XLink.extendedLoop find_urls extName
          (StreamItem.ok (XmlEvent.StartElement n2 attributes bindings) pos :: rest)
          acc
          = XLink.extendedLoop find_urls extName rest
              (acc ++ XLink.scrape_from_option_string find_urls role
                XLink.XLinkLinkKind.Role pos)) := by
  refine ⟨?_, ?_, fun k pos => rfl, ?_, fun el pos => rfl,
    fun el pos s2 => rfl, ?_, ?_, ?_⟩
  · intro links h l hl att hkind
    rw [Xml.scrape_eq_ok] at h
    injection h with h
    subst h
    rcases List.mem_append.mp hl with hc | hf
    · exact (Xml.scrapeLoopP_linkProp find_urls stream none [] []
        (fun _ hx => absurd hx (List.not_mem_nil _)) l hc).2 att hkind
    · rcases Xml.flushNamespaces_kind find_urls _ l hf with ⟨q, hq⟩
      rw [hkind] at hq
      cases hq
  · intro links h l hl hne
    have hprop := XLink.xlinkProp_xlinkLoop find_urls stream.length stream
      (Nat.le_refl _) [] links (fun _ hx => absurd hx (List.not_mem_nil _)) h l hl
    rcases hprop with hext | hs
    · exact absurd hext hne
    · exact hs
  · intro v k pos h
    show (find_urls v).map _ = []
    rw [h]
    rfl
  · intro extName n2 attributes bindings pos rest acc href role h
    simp only [XLink.extendedLoop, h]
  · intro extName n2 attributes bindings pos rest acc arcrole h
    simp only [XLink.extendedLoop, h]
  · intro extName n2 attributes bindings pos rest acc role h
    simp only [XLink.extendedLoop, h]

/-- Witness for the amended C3 at concrete inputs: the generic scrape's
attribute link is a matcher match on the attribute's value; the helper every
`Simple`/`Role`/`ArcRole` emission goes through returns no link on the
matcher-empty value `not-a-url`; and an arc element whose `arcrole` is that
value contributes exactly the helper's (empty) output to the sub-loop. -/
theorem C3_non_url_attributes_yield_no_links_amended_witness :
    "https://attribute.test.com" ∈ demoMatcher hrefAtt.value
    ∧ demoMatcher "not-a-url" = []
    ∧ XLink.scrape_from_option_string demoMatcher (some "not-a-url")
        XLink.XLinkLinkKind.Role p2 = []
    ∧ XLink.extendedLoop demoMatcher nExt
        (StreamItem.ok (XmlEvent.StartElement nArc
          [typeAtt "arc", arcroleXAtt "not-a-url"] []) p2 :: []) []
      = XLink.extendedLoop demoMatcher nExt []
          ([] ++ XLink.scrape_from_option_string demoMatcher (some "not-a-url")
            XLink.XLinkLinkKind.ArcRole p2) :=
  ⟨(C3_non_url_attributes_yield_no_links_amended demoMatcher c1XmlInput).1
      [⟨"https://attribute.test.com", p1, XmlLinkKind.Attribute hrefAtt⟩]
      (by decide)
      ⟨"https://attribute.test.com", p1, XmlLinkKind.Attribute hrefAtt⟩
      (by decide) hrefAtt rfl,
   by decide,
   (C3_non_url_attributes_yield_no_links_amended demoMatcher
      c1XmlInput).2.2.2.1 "not-a-url" XLink.XLinkLinkKind.Role p2 (by decide),
   (C3_non_url_attributes_yield_no_links_amended demoMatcher
      c1XmlInput).2.2.2.2.2.2.2.1 nExt nArc
      [typeAtt "arc", arcroleXAtt "not-a-url"] [] p2 [] []
      (some "not-a-url") (by decide)⟩

/-- Claim C4: a locator inside an extended element contributes exactly one
`Extended`-kind link whose url is the locator's `href` value verbatim (the
URL matcher is not consulted for it), followed by the locator's optional
`role` filtered through the matcher, one `Role` link per match. -/
theorem C4_locator_href_verbatim_role_filtered (find_urls : UrlMatcher)
    (extName name : OwnedName) (attributes : List OwnedAttribute)
    (bindings : List (String × String)) (pos : TextPosition)
    (rest : List StreamItem) (acc : List XLink.XLinkLink) (href : String)
    (role : Option String)
    (h : XLink.try_from_xml_start_element ⟨name, attributes, bindings⟩
      = Except.ok (some (XLink.XlinkElement.Locator ⟨href, role⟩))) :
    (XLink.extendedLoop find_urls extName
        (StreamItem.ok (XmlEvent.StartElement name attributes bindings) pos :: rest)
        acc
      = XLink.extendedLoop find_urls extName rest
          (acc ++ (⟨href, pos, XLink.XLinkLinkKind.Extended⟩ ::
            XLink.scrape_from_option_string find_urls role
              XLink.XLinkLinkKind.Role pos)))
    ∧ (∀ r, XLink.scrape_from_option_string find_urls (some r)
          XLink.XLinkLinkKind.Role pos
        = (find_urls r).map (fun link => ⟨link, pos, XLink.XLinkLinkKind.Role⟩))
    ∧ XLink.scrape_from_option_string find_urls none
        XLink.XLinkLinkKind.Role pos = [] := by
  refine ⟨?_, fun r => rfl, rfl⟩
  simp only [XLink.extendedLoop, h]

/-- Witness for C4 at a concrete locator element with both `href` and
`role`. -/
theorem C4_locator_href_verbatim_role_filtered_witness :
    XLink.try_from_xml_start_element ⟨nLoc,
        [typeAtt "locator", hrefXAtt "https://extended.test.com/",
         roleXAtt "https://role.test.com/"], []⟩
      = Except.ok (some (XLink.XlinkElement.Locator
          ⟨"https://extended.test.com/", some "https://role.test.com/"⟩))
    ∧ XLink.extendedLoop demoMatcher nExt
        (StreamItem.ok (XmlEvent.StartElement nLoc
          [typeAtt "locator", hrefXAtt "https://extended.test.com/",
           roleXAtt "https://role.test.com/"] []) p2 :: []) []
      = XLink.extendedLoop demoMatcher nExt []
          ([] ++ (⟨"https://extended.test.com/", p2, XLink.XLinkLinkKind.Extended⟩ ::
            XLink.scrape_from_option_string demoMatcher
              (some "https://role.test.com/") XLink.XLinkLinkKind.Role p2)) :=
  ⟨by decide,
   (C4_locator_href_verbatim_role_filtered demoMatcher nExt nLoc
     [typeAtt "locator", hrefXAtt "https://extended.test.com/",
      roleXAtt "https://role.test.com/"] [] p2 [] []
     "https://extended.test.com/" (some "https://role.test.com/")
     (by decide)).1⟩

/-- Claim C5: every containment violation of the xlink vocabulary is fatal
with its named error: a locator, arc or resource classified while no extended
element is open makes the top-level loop fail with the corresponding
"outside of extended" error, and a simple or extended element classified
inside an open extended element makes the sub-loop fail with the
corresponding "inside of extended" error. -/
theorem C5_nesting_violations_fatal (find_urls : UrlMatcher) (name : OwnedName)
    (attributes : List OwnedAttribute) (bindings : List (String × String))
    (pos : TextPosition) (rest : List StreamItem)
    (collector : List XLink.XLinkLink)
    (extName : OwnedName) (acc : List XLink.XLinkLink) :
    (∀ el, XLink.try_from_xml_start_element ⟨name, attributes, bindings⟩
        = Except.ok (some (XLink.XlinkElement.Locator el)) →
      XLink.xlinkLoop find_urls
        (StreamItem.ok (XmlEvent.StartElement name attributes bindings) pos :: rest)
        collector
        = Except.error XLink.XLinkFormatError.LocatorOutsideOfExtendedError)
    ∧ (∀ el, XLink.try_from_xml_start_element ⟨name, attributes, bindings⟩
        = Except.ok (some (XLink.XlinkElement.Arc el)) →
      XLink.xlinkLoop find_urls
        (StreamItem.ok (XmlEvent.StartElement name attributes bindings) pos :: rest)
        collector
        = Except.error XLink.XLinkFormatError.ArcOutsideOfExtendedError)
    ∧ (∀ el, XLink.try_from_xml_start_element ⟨name, attributes, bindings⟩
        = Except.ok (some (XLink.XlinkElement.Resource el)) →
      XLink.xlinkLoop find_urls
        (StreamItem.ok (XmlEvent.StartElement name attributes bindings) pos :: rest)
        collector
        = Except.error XLink.XLinkFormatError.ResourceOutsideOfExtendedError)
    ∧ (∀ el, XLink.try_from_xml_start_element ⟨name, attributes, bindings⟩
        = Except.ok (some (XLink.XlinkElement.Simple el)) →
      XLink.extendedLoop find_urls extName
        (StreamItem.ok (XmlEvent.StartElement name attributes bindings) pos :: rest)
        acc
        = Except.error XLink.XLinkFormatError.SimpleInsideOfExtendedError)
    ∧ (∀ el, XLink.try_from_xml_start_element ⟨name, attributes, bindings⟩
        = Except.ok (some (XLink.XlinkElement.Extended el)) →
      XLink.extendedLoop find_urls extName
        (StreamItem.ok (XmlEvent.StartElement name attributes bindings) pos :: rest)
        acc
        = Except.error XLink.XLinkFormatError.ExtendedInsideOfExtendedError) := by
  refine ⟨?_, ?_, ?_, ?_, ?_⟩
  · intro el h
    refine XLink.xlinkLoop_start_error find_urls name attributes bindings pos
      rest collector _ ?_
    simp only [XLink.scrape_from_start_element, h]
  · intro el h
    refine XLink.xlinkLoop_start_error find_urls name attributes bindings pos
      rest collector _ ?_
    simp only [XLink.scrape_from_start_element, h]
  · intro el h
    refine XLink.xlinkLoop_start_error find_urls name attributes bindings pos
      rest collector _ ?_
    simp only [XLink.scrape_from_start_element, h]
  · intro el h
    simp only [XLink.extendedLoop, h]
  · intro el h
    simp only [XLink.extendedLoop, h]

/-- Witness for C5: each of the five violations at a concrete element. -/
theorem C5_nesting_violations_fatal_witness :
    (XLink.try_from_xml_start_element ⟨nLoc,
        [typeAtt "locator", hrefXAtt "https://extended.test.com/"], []⟩
      = Except.ok (some (XLink.XlinkElement.Locator
          ⟨"https://extended.test.com/", none⟩)))
    ∧ XLink.xlinkLoop demoMatcher
        (StreamItem.ok (XmlEvent.StartElement nLoc
          [typeAtt "locator", hrefXAtt "https://extended.test.com/"] []) p1 :: []) []
        = Except.error XLink.XLinkFormatError.LocatorOutsideOfExtendedError
    ∧ XLink.xlinkLoop demoMatcher
        (StreamItem.ok (XmlEvent.StartElement nArc [typeAtt "arc"] []) p1 :: []) []
        = Except.error XLink.XLinkFormatError.ArcOutsideOfExtendedError
    ∧ XLink.xlinkLoop demoMatcher
        (StreamItem.ok (XmlEvent.StartElement nRes [typeAtt "resource"] []) p1 :: []) []
        = Except.error XLink.XLinkFormatError.ResourceOutsideOfExtendedError
    ∧ XLink.extendedLoop demoMatcher nExt
        (StreamItem.ok (XmlEvent.StartElement nSimp [typeAtt "simple"] []) p2 :: []) []
        = Except.error XLink.XLinkFormatError.SimpleInsideOfExtendedError
    ∧ XLink.extendedLoop demoMatcher nExt
        (StreamItem.ok (XmlEvent.StartElement nExt [typeAtt "extended"] []) p2 :: []) []
        = Except.error XLink.XLinkFormatError.ExtendedInsideOfExtendedError :=
  ⟨by decide,
   (C5_nesting_violations_fatal demoMatcher nLoc
     [typeAtt "locator", hrefXAtt "https://extended.test.com/"] [] p1 [] []
     nExt []).1 ⟨"https://extended.test.com/", none⟩ (by decide),
   (C5_nesting_violations_fatal demoMatcher nArc [typeAtt "arc"] [] p1 [] []
     nExt []).2.1 ⟨none⟩ (by decide),
   (C5_nesting_violations_fatal demoMatcher nRes [typeAtt "resource"] [] p1 [] []
     nExt []).2.2.1 ⟨none⟩ (by decide),
   (C5_nesting_violations_fatal demoMatcher nSimp [typeAtt "simple"] [] p2 [] []
     nExt []).2.2.2.1 ⟨none, none, none, none⟩ (by decide),
   (C5_nesting_violations_fatal demoMatcher nExt [typeAtt "extended"] [] p2 [] []
     nExt []).2.2.2.2 ⟨none, ⟨nExt, [typeAtt "extended"], []⟩⟩ (by decide)⟩

/-- Claim C8: the extended sub-loop exits back to the caller exactly on the
first element-end event whose full qualified name equals the enclosing
extended element's name — name equality is the sole termination test, with
no depth tracking — and every other non-classifiable event (mismatching
element ends, text, comments, CData, even end-of-document, and start
elements that classify to nothing or to `Title`) leaves the sub-loop
running. -/
theorem C8_extended_subloop_exits_on_name_equality (find_urls : UrlMatcher)
    (extName name : OwnedName) (pos : TextPosition) (rest : List StreamItem)
    (acc : List XLink.XLinkLink) :
    (name = extName →
      XLink.extendedLoop find_urls extName
        (StreamItem.ok (XmlEvent.EndElement name) pos :: rest) acc
        = Except.ok (acc, rest))
    ∧ (name ≠ extName →
      XLink.extendedLoop find_urls extName
        (StreamItem.ok (XmlEvent.EndElement name) pos :: rest) acc
        = XLink.extendedLoop find_urls extName rest acc)
    ∧ (∀ text, XLink.extendedLoop find_urls extName
        (StreamItem.ok (XmlEvent.Comment text) pos :: rest) acc
        = XLink.extendedLoop find_urls extName rest acc)
    ∧ (∀ text, XLink.extendedLoop find_urls extName
        (StreamItem.ok (XmlEvent.Characters text) pos :: rest) acc
        = XLink.extendedLoop find_urls extName rest acc)
    ∧ (∀ text, XLink.extendedLoop find_urls extName
        (StreamItem.ok (XmlEvent.CData text) pos :: rest) acc
        = XLink.extendedLoop find_urls extName rest acc)
    ∧ (XLink.extendedLoop find_urls extName
        (StreamItem.ok XmlEvent.EndDocument pos :: rest) acc
        = XLink.extendedLoop find_urls extName rest acc)
    ∧ (XLink.extendedLoop find_urls extName
        (StreamItem.ok XmlEvent.OtherEvent pos :: rest) acc
        = XLink.extendedLoop find_urls extName rest acc)
    ∧ (∀ n2 (attributes : List OwnedAttribute)
        (bindings : List (String × String)),
        XLink.try_from_xml_start_element ⟨n2, attributes, bindings⟩
          = Except.ok none →
        XLink.extendedLoop find_urls extName
          (StreamItem.ok (XmlEvent.StartElement n2 attributes bindings) pos :: rest)
          acc
          = XLink.extendedLoop find_urls extName rest acc)
    ∧ (∀ n2 (attributes : List OwnedAttribute)
        (bindings : List (String × String)),
        XLink.try_from_xml_start_element ⟨n2, attributes, bindings⟩
          = Except.ok (some XLink.XlinkElement.Title) →
        XLink.extendedLoop find_urls extName
          (StreamItem.ok (XmlEvent.StartElement n2 attributes bindings) pos :: rest)
          acc
          = XLink.extendedLoop find_urls extName rest acc) := by
  refine ⟨?_, ?_, fun text => rfl, fun text => rfl, fun text => rfl, rfl, rfl,
    ?_, ?_⟩
  · intro hn
    simp only [XLink.extendedLoop]
    rw [if_pos hn]
  · intro hn
    simp only [XLink.extendedLoop]
    rw [if_neg hn]
  · intro n2 attributes bindings h
    simp only [XLink.extendedLoop, h]
  · intro n2 attributes bindings h
    simp only [XLink.extendedLoop, h]

/-- Witness for C8: at a concrete stream the sub-loop stops on the matching
end tag and continues past a mismatching one. -/
theorem C8_extended_subloop_exits_on_name_equality_witness :
    XLink.extendedLoop demoMatcher nExt
      (StreamItem.ok (XmlEvent.EndElement nExt) p2 :: []) []
      = Except.ok ([], [])
    ∧ XLink.extendedLoop demoMatcher nExt
        (StreamItem.ok (XmlEvent.EndElement nLoc) p2 :: []) []
        = XLink.extendedLoop demoMatcher nExt [] [] :=
  ⟨(C8_extended_subloop_exits_on_name_equality demoMatcher nExt nExt p2 [] []).1
     rfl,
   (C8_extended_subloop_exits_on_name_equality demoMatcher nExt nLoc p2 [] []).2.1
     (by decide)⟩

end LinkScraper
